import Mathlib

/-!
# IPv4 forwarding plane: `12-mospf/ip.c`

A shallow embedding of `ip.c` (header construction, longest-prefix-match
lookup, the receive-path dispatcher, the forwarding path and the local
origination path), followed by theorems about it.

Conventions of the embedding:

* machine integers (`u8`, `u16`, `u32`, `int`) are `Nat`/`Int`; where the C
  arithmetic can wrap, the wrap is written out with `%`;
* header fields hold the value *as stored in memory* (network byte order for
  the multi-byte fields), exactly as the C code reads `ip->daddr`;
* the global routing table `rtable` is an explicit argument, in list iteration
  order; `rtable_lock` is held for the whole scan, so one call sees one
  snapshot of the table;
* calls into the collaborators (`icmp_send_packet`, `handle_mospf_packet`,
  `iface_send_packet_by_arp`, `free`, `log`) are recorded, in program order,
  in a trace of `Action`s; each action records its arguments, the packet
  argument being the contents of the buffer at the time of the call.
-/

set_option autoImplicit false

namespace IpForward

/-! ## Data model -/

/-- Interface record `iface_info_t`, restricted to what `ip.c` reads: the
interface's own address `ip` (host byte order). `index` stands for the
identity of the interface the pointer refers to. -/
structure iface_info_t where
  index : Nat
  ip : Nat
deriving DecidableEq, Repr

/-- Modelled from the spec: the route record `rt_entry_t` (rtable.h is not among
the sources). `dest`, `mask` and `iface` are the fields `ip.c` reads; `gw` is
the optional next-hop address of the spec's data model (absent: directly
connected). -/
structure rt_entry_t where
  dest : Nat
  mask : Nat
  gw : Option Nat
  iface : iface_info_t
deriving DecidableEq, Repr

/-- The IPv4 header `struct iphdr` (fixed 20-byte part). Every field holds the
stored value; `tot_len`, `id`, `frag_off`, `checksum`, `saddr`, `daddr` are in
network byte order as on the wire. -/
structure iphdr where
  version : Nat
  ihl : Nat
  tos : Nat
  tot_len : Nat
  id : Nat
  frag_off : Nat
  ttl : Nat
  protocol : Nat
  checksum : Nat
  saddr : Nat
  daddr : Nat
deriving DecidableEq, Repr

/-- A packet buffer as `ip.c` sees it: the header reached by
`packet_to_ip_hdr(packet)` and the bytes at `IP_DATA(ip)` (the payload that
follows the header). -/
structure Packet where
  ip : iphdr
  data : List Nat
deriving DecidableEq, Repr

/-- Fields of a header are within their machine widths. -/
def iphdr.wf (h : iphdr) : Prop :=
  h.version < 16 ∧ h.ihl < 16 ∧ h.tos < 256 ∧ h.tot_len < 65536 ∧ h.id < 65536 ∧
  h.frag_off < 65536 ∧ h.ttl < 256 ∧ h.protocol < 256 ∧ h.checksum < 65536 ∧
  h.saddr < 4294967296 ∧ h.daddr < 4294967296

instance (h : iphdr) : Decidable h.wf := by
  unfold iphdr.wf; infer_instance

/-! ## Constants and helpers that live outside `ip.c` -/

/-- Modelled from the spec: `IPPROTO_ICMP` (ip.h is not among the sources); the
IANA protocol number of ICMP. -/
def IPPROTO_ICMP : Nat := 1

/-- Modelled from the spec: `IPPROTO_MOSPF` (mospf_proto.h is not among the
sources); the protocol number of the link-state routing protocol. -/
def IPPROTO_MOSPF : Nat := 90

/-- Modelled from the spec: `MOSPF_ALLSPFRouters` (mospf_proto.h is not among the
sources); the well-known link-state-routing multicast address 224.0.0.5, host
byte order. -/
def MOSPF_ALLSPFRouters : Nat := 0xE0000005

/-- Modelled from the spec: `ICMP_ECHOREQUEST` (icmp.h is not among the sources). -/
def ICMP_ECHOREQUEST : Nat := 8

/-- Modelled from the spec: `ICMP_ECHOREPLY` (icmp.h is not among the sources). -/
def ICMP_ECHOREPLY : Nat := 0

/-- Modelled from the spec: `ICMP_DEST_UNREACH` (icmp.h is not among the sources). -/
def ICMP_DEST_UNREACH : Nat := 3

/-- Modelled from the spec: `ICMP_NET_UNREACH` (icmp.h is not among the sources). -/
def ICMP_NET_UNREACH : Nat := 0

/-- Modelled from the spec: `ICMP_TIME_EXCEEDED` (icmp.h is not among the sources). -/
def ICMP_TIME_EXCEEDED : Nat := 11

/-- Modelled from the spec: `ICMP_EXC_TTL` (icmp.h is not among the sources). -/
def ICMP_EXC_TTL : Nat := 0

/-- Modelled from the spec: `DEFAULT_TTL` (ip.h is not among the sources), the
fixed default time-to-live. -/
def DEFAULT_TTL : Nat := 64

/-- Modelled from the spec: `IP_DF` (ip.h is not among the sources), the
don't-fragment flag in the flags/fragment-offset word. -/
def IP_DF : Nat := 0x4000

/-- Byte swap of a 16-bit value. -/
def bswap16 (x : Nat) : Nat :=
  (x % 256) * 256 + (x / 256) % 256

/-- Byte swap of a 32-bit value. -/
def bswap32 (x : Nat) : Nat :=
  (x % 256) * 16777216 + ((x / 256) % 256) * 65536 +
    ((x / 65536) % 256) * 256 + (x / 16777216) % 256

/-- The C library `htons` on a little-endian host. -/
def htons (x : Nat) : Nat := bswap16 x

/-- The C library `ntohs` on a little-endian host. -/
def ntohs (x : Nat) : Nat := bswap16 x

/-- The C library `htonl` on a little-endian host. -/
def htonl (x : Nat) : Nat := bswap32 x

/-- The C library `ntohl` on a little-endian host. -/
def ntohl (x : Nat) : Nat := bswap32 x

/-- The ten 16-bit words of the fixed header as the host reads them from
memory, the checksum word taken as zero. -/
def iphdr.words (h : iphdr) : List Nat :=
  [ (h.version * 16 + h.ihl) + 256 * h.tos,
    h.tot_len,
    h.id,
    h.frag_off,
    h.ttl + 256 * h.protocol,
    0,
    h.saddr % 65536,
    h.saddr / 65536,
    h.daddr % 65536,
    h.daddr / 65536 ]

/-- Carry fold and complement of a one's-complement sum, as a `u16`. -/
def checksum_fold (sum : Nat) : Nat :=
  let s1 := (sum >>> 16) + (sum &&& 0xffff)
  let s2 := (s1 + (s1 >>> 16)) % 4294967296
  (4294967295 - s2) % 65536

/-- Modelled from the spec: `ip_checksum` (ip.h is not among the sources): the
one's-complement sum of the header's 16-bit words with carry fold, then
complement, the checksum field itself treated as zero during the computation.
The header is the fixed 5-word header (no options supported). -/
def ip_checksum (h : iphdr) : Nat :=
  checksum_fold (h.words.foldl (fun acc w => (acc + w) % 4294967296) 0)

/-- Modelled from the spec: `get_next_hop` (rtable.h is not among the sources):
the route's configured next hop if present, else the packet's own destination
address. -/
def get_next_hop (entry : rt_entry_t) (dst : Nat) : Nat :=
  match entry.gw with
  | some gw => gw
  | none => dst

/-- The ICMP message type: first byte of the `struct icmphdr` at `IP_DATA(ip)`.
A buffer with no byte there reads as 0. -/
def icmp_type (p : Packet) : Nat := p.data.headD 0

/-! ## Effects -/

/-- Calls made by `ip.c` into its collaborators, with their arguments. -/
inductive Action where
  | icmp_send_packet (packet : Packet) (len : Int) (type : Nat) (code : Nat)
  | handle_mospf_packet (iface : iface_info_t) (packet : Packet) (len : Int)
  | iface_send_packet_by_arp (iface : iface_info_t) (next_hop : Nat)
      (packet : Packet) (len : Int)
  | free (packet : Packet)
  | log_error (dst : Nat)
deriving DecidableEq, Repr

/-- How a call ends: it returns to its caller, or the `assert` in it fails and
the process is aborted. Either way `trace` is what was done up to that point. -/
inductive Outcome where
  | returned (trace : List Action)
  | assert_failed (trace : List Action)
deriving DecidableEq, Repr

/-- The actions performed, whichever way the call ended. -/
def Outcome.trace : Outcome → List Action
  | .returned t => t
  | .assert_failed t => t

/-- Whether an action is a release of the buffer (`free`). -/
def Action.isFree : Action → Bool
  | .free _ => true
  | _ => false

/-- Whether an action is a hand-off to the link-layer transmit capability. -/
def Action.isTransmit : Action → Bool
  | .iface_send_packet_by_arp _ _ _ _ => true
  | _ => false

/-- Whether an action is the generation of an ICMP message. -/
def Action.isIcmp : Action → Bool
  | .icmp_send_packet _ _ _ _ => true
  | _ => false

/-- Whether an action is a hand-off to the routing-protocol collaborator. -/
def Action.isMospf : Action → Bool
  | .handle_mospf_packet _ _ _ => true
  | _ => false

/-! ## The functions of `ip.c` -/

/-- The function `ip_init_hdr`, one field assignment after the other; `ip` is the
prior content of the header buffer and `rand` the value returned by `rand()`,
truncated to the 16-bit `id` field. -/
def ip_init_hdr (ip : iphdr) (rand : Nat) (saddr daddr len proto : Nat) : iphdr :=
  let ip := { ip with version := 4 }
  let ip := { ip with ihl := 5 }
  let ip := { ip with tos := 0 }
  let ip := { ip with tot_len := htons len }
  let ip := { ip with id := rand % 65536 }
  let ip := { ip with frag_off := htons IP_DF }
  let ip := { ip with ttl := DEFAULT_TTL }
  let ip := { ip with protocol := proto }
  let ip := { ip with saddr := htonl saddr }
  let ip := { ip with daddr := htonl daddr }
  { ip with checksum := ip_checksum ip }

/-- The route `entry` matches `dst`: the test of line 39. -/
def rt_match (dst : Nat) (entry : rt_entry_t) : Prop :=
  (dst &&& entry.mask) = (entry.dest &&& entry.mask)

instance (dst : Nat) (entry : rt_entry_t) : Decidable (rt_match dst entry) := by
  unfold rt_match; infer_instance

/-- Body of the `list_for_each_entry` loop of `longest_prefix_match`: the new
value of `selected` after visiting `entry`. -/
def lpm_step (dst : Nat) (selected : Option rt_entry_t) (entry : rt_entry_t) :
    Option rt_entry_t :=
  if (dst &&& entry.mask) = (entry.dest &&& entry.mask) then
    match selected with
    | none => some entry
    | some s => if s.mask < entry.mask then some entry else some s
  else selected

/-- The function `longest_prefix_match`: scan the whole table in list order,
starting from `selected = NULL`. -/
def longest_prefix_match (rtable : List rt_entry_t) (dst : Nat) : Option rt_entry_t :=
  rtable.foldl (lpm_step dst) none

/-- The function `ip_forward_packet`. -/
def ip_forward_packet (rtable : List rt_entry_t) (ip_dst : Nat) (packet : Packet)
    (len : Int) : List Action :=
  if packet.ip.ttl ≤ 1 then
    [Action.icmp_send_packet packet len ICMP_TIME_EXCEEDED ICMP_EXC_TTL, Action.free packet]
  else
    let ip1 : iphdr := { packet.ip with ttl := (packet.ip.ttl + 255) % 256 }
    let ip2 : iphdr := { ip1 with checksum := ip_checksum ip1 }
    let packet2 : Packet := { packet with ip := ip2 }
    match longest_prefix_match rtable ip_dst with
    | none =>
      [Action.icmp_send_packet packet2 len ICMP_DEST_UNREACH ICMP_NET_UNREACH,
        Action.free packet2]
    | some entry =>
      let next_hop := get_next_hop entry ip_dst
      let iface := entry.iface
      [Action.iface_send_packet_by_arp iface next_hop packet2 len]

/-- The function `handle_ip_packet`. -/
def handle_ip_packet (rtable : List rt_entry_t) (iface : iface_info_t) (packet : Packet)
    (len : Int) : Outcome :=
  let ip := packet.ip
  let daddr := ntohl ip.daddr
  if daddr = iface.ip then
    let t1 : List Action :=
      if ip.protocol = IPPROTO_ICMP then
        if icmp_type packet = ICMP_ECHOREQUEST then
          [Action.icmp_send_packet packet len ICMP_ECHOREPLY 0]
        else []
      else if ip.protocol = IPPROTO_MOSPF then
        [Action.handle_mospf_packet iface packet len]
      else []
    Outcome.returned (t1 ++ [Action.free packet])
  else if ip.daddr = htonl MOSPF_ALLSPFRouters then
    if ip.protocol = IPPROTO_MOSPF then
      Outcome.returned [Action.handle_mospf_packet iface packet len, Action.free packet]
    else
      Outcome.assert_failed []
  else
    Outcome.returned (ip_forward_packet rtable daddr packet len)

/-- The function `ip_send_packet`. -/
def ip_send_packet (rtable : List rt_entry_t) (packet : Packet) (len : Int) : List Action :=
  let ip := packet.ip
  let dst := ntohl ip.daddr
  match longest_prefix_match rtable dst with
  | none => [Action.log_error dst, Action.free packet]
  | some entry =>
    let next_hop := get_next_hop entry dst
    let iface := entry.iface
    [Action.iface_send_packet_by_arp iface next_hop packet len]

/-! ## Prefix masks -/

/-- The mask of a /n network: `n` leading one bits out of 32. -/
def prefix_mask (n : Nat) : Nat := 4294967296 - 2 ^ (32 - n)

/-- The mask `m` is contiguous leading ones: a /n mask with `0 ≤ n ≤ 32`. -/
def is_prefix_mask (m : Nat) : Prop := ∃ n, n ≤ 32 ∧ m = prefix_mask n

/-- Prefix length of a 32-bit mask: the number of one bits in it. -/
def mask_len (m : Nat) : Nat := ((List.range 32).filter (fun i => m.testBit i)).length

/-- The trace disposes of the buffer exactly once: one release and no hand-off
to the transmit capability, or one hand-off and no release. -/
def exactly_one_disposal (t : List Action) : Prop :=
  (t.countP Action.isFree = 1 ∧ t.countP Action.isTransmit = 0) ∨
    (t.countP Action.isTransmit = 1 ∧ t.countP Action.isFree = 0)

instance (t : List Action) : Decidable (exactly_one_disposal t) := by
  unfold exactly_one_disposal; infer_instance

/-! ## Concrete inputs used in examples -/

/-- Interface A, address 10.0.0.1. -/
def ifaceA : iface_info_t := { index := 0, ip := 0x0A000001 }

/-- Interface B, address 10.0.1.1. -/
def ifaceB : iface_info_t := { index := 1, ip := 0x0A000101 }

/-- Route 10.0.0.0/8 via interface A, directly connected. -/
def route8 : rt_entry_t :=
  { dest := 0x0A000000, mask := 0xFF000000, gw := none, iface := ifaceA }

/-- Route 10.0.1.0/24 via interface B, directly connected. -/
def route24 : rt_entry_t :=
  { dest := 0x0A000100, mask := 0xFFFFFF00, gw := none, iface := ifaceB }

/-- Address 10.0.1.5, host byte order. -/
def addr_10_0_1_5 : Nat := 0x0A000105

/-- Address 10.0.2.5, host byte order. -/
def addr_10_0_2_5 : Nat := 0x0A000205

/-- A header from 10.0.2.5 to host-order destination `dst` with the given
time-to-live and protocol; checksum field left at zero. -/
def sample_hdr (dst ttl proto : Nat) : iphdr :=
  { version := 4, ihl := 5, tos := 0, tot_len := htons 28, id := 7,
    frag_off := htons IP_DF, ttl := ttl, protocol := proto, checksum := 0,
    saddr := htonl addr_10_0_2_5, daddr := htonl dst }

/-- A packet to `dst` whose payload starts with an ICMP echo request header. -/
def sample_packet (dst ttl proto : Nat) : Packet :=
  { ip := sample_hdr dst ttl proto, data := [ICMP_ECHOREQUEST, 0, 0, 0, 0, 0, 0, 0] }

/-- A UDP packet addressed to the routing-protocol multicast address. -/
def mcast_udp_packet : Packet :=
  { ip := sample_hdr MOSPF_ALLSPFRouters 1 17, data := [0, 53, 0, 53, 0, 8, 0, 0] }

/-- An ICMP echo request addressed to the routing-protocol multicast address. -/
def mcast_icmp_packet : Packet := sample_packet MOSPF_ALLSPFRouters 64 IPPROTO_ICMP

/-- The receiver's check of a header: the one's-complement sum over all ten
16-bit words, the checksum word included, folds and complements to zero. -/
def header_verifies (h : iphdr) : Prop :=
  checksum_fold
    ((h.words.foldl (fun acc w => (acc + w) % 4294967296) 0 + h.checksum) % 4294967296) = 0

instance (h : iphdr) : Decidable (header_verifies h) := by
  unfold header_verifies; infer_instance

/-- A second route for 10.0.1.0/24, via gateway 10.0.0.2 on interface A. -/
def route24_alt : rt_entry_t :=
  { dest := 0x0A000100, mask := 0xFFFFFF00, gw := some 0x0A000002, iface := ifaceA }

/-- The default route 0.0.0.0/0 via gateway 10.0.0.2 on interface A. -/
def route_default : rt_entry_t :=
  { dest := 0, mask := 0, gw := some 0x0A000002, iface := ifaceA }

/-- A header buffer holding arbitrary earlier content. -/
def stale_hdr : iphdr :=
  { version := 6, ihl := 15, tos := 255, tot_len := 1, id := 2, frag_off := 3, ttl := 4,
    protocol := 5, checksum := 6, saddr := 7, daddr := 8 }

/-! ## Lemmas on the table scan -/

theorem lpm_fold_some (dst : Nat) :
    ∀ (l : List rt_entry_t) (sel : Option rt_entry_t) (r : rt_entry_t),
      l.foldl (lpm_step dst) sel = some r →
        ((r ∈ l ∧ rt_match dst r) ∨ sel = some r) ∧
        (∀ s, sel = some s → s.mask ≤ r.mask) ∧
        (∀ e ∈ l, rt_match dst e → e.mask ≤ r.mask) := by
  intro l
  induction l with
  | nil =>
    intro sel r h
    simp only [List.foldl_nil] at h
    subst h
    refine ⟨Or.inr rfl, ?_, ?_⟩
    · intro s hs; cases hs; exact le_refl _
    · intro e he; cases he
  | cons a t ih =>
    intro sel r h
    simp only [List.foldl_cons] at h
    obtain ⟨h1, h2, h3⟩ := ih _ _ h
    by_cases hm : (dst &&& a.mask) = (a.dest &&& a.mask)
    · cases sel with
      | none =>
        have hstep : lpm_step dst none a = some a := by simp [lpm_step, hm]
        rw [hstep] at h1 h2
        have ha : a.mask ≤ r.mask := h2 a rfl
        refine ⟨Or.inl ?_, ?_, ?_⟩
        · rcases h1 with ⟨hr, hrm⟩ | hr
          · exact ⟨List.mem_cons_of_mem _ hr, hrm⟩
          · cases hr; exact ⟨List.mem_cons_self _ _, hm⟩
        · intro s hs; cases hs
        · intro e he hem
          rcases List.mem_cons.mp he with rfl | he
          · exact ha
          · exact h3 e he hem
      | some s =>
        by_cases hlt : s.mask < a.mask
        · have hstep : lpm_step dst (some s) a = some a := by simp [lpm_step, hm, hlt]
          rw [hstep] at h1 h2
          have ha : a.mask ≤ r.mask := h2 a rfl
          refine ⟨Or.inl ?_, ?_, ?_⟩
          · rcases h1 with ⟨hr, hrm⟩ | hr
            · exact ⟨List.mem_cons_of_mem _ hr, hrm⟩
            · cases hr; exact ⟨List.mem_cons_self _ _, hm⟩
          · intro s' hs'; cases hs'; exact le_trans (le_of_lt hlt) ha
          · intro e he hem
            rcases List.mem_cons.mp he with rfl | he
            · exact ha
            · exact h3 e he hem
        · have hstep : lpm_step dst (some s) a = some s := by simp [lpm_step, hm, hlt]
          rw [hstep] at h1 h2
          have hs : s.mask ≤ r.mask := h2 s rfl
          refine ⟨?_, ?_, ?_⟩
          · rcases h1 with ⟨hr, hrm⟩ | hr
            · exact Or.inl ⟨List.mem_cons_of_mem _ hr, hrm⟩
            · exact Or.inr hr
          · intro s' hs'; cases hs'; exact hs
          · intro e he hem
            rcases List.mem_cons.mp he with rfl | he
            · exact le_trans (not_lt.mp hlt) hs
            · exact h3 e he hem
    · have hstep : lpm_step dst sel a = sel := by simp [lpm_step, hm]
      rw [hstep] at h1 h2
      refine ⟨?_, h2, ?_⟩
      · rcases h1 with ⟨hr, hrm⟩ | hr
        · exact Or.inl ⟨List.mem_cons_of_mem _ hr, hrm⟩
        · exact Or.inr hr
      · intro e he hem
        rcases List.mem_cons.mp he with rfl | he
        · exact absurd hem hm
        · exact h3 e he hem

theorem lpm_fold_none (dst : Nat) :
    ∀ (l : List rt_entry_t) (sel : Option rt_entry_t),
      l.foldl (lpm_step dst) sel = none ↔ (sel = none ∧ ∀ e ∈ l, ¬ rt_match dst e) := by
  intro l
  induction l with
  | nil => intro sel; simp
  | cons a t ih =>
    intro sel
    simp only [List.foldl_cons, ih, List.mem_cons, forall_eq_or_imp]
    by_cases hm : (dst &&& a.mask) = (a.dest &&& a.mask)
    · have hne : lpm_step dst sel a ≠ none := by
        cases sel with
        | none => simp [lpm_step, hm]
        | some s => by_cases hlt : s.mask < a.mask <;> simp [lpm_step, hm, hlt]
      constructor
      · intro h; exact absurd h.1 hne
      · intro h; exact absurd hm h.2.1
    · have hstep : lpm_step dst sel a = sel := by simp [lpm_step, hm]
      rw [hstep]
      constructor
      · intro h; exact ⟨h.1, hm, h.2⟩
      · intro h; exact ⟨h.1, h.2.2⟩

/-! ## Lemmas on prefix masks -/

theorem mask_len_prefix_mask : ∀ n, n ≤ 32 → mask_len (prefix_mask n) = n := by
  decide

theorem prefix_mask_lt {a b : Nat} (ha : a ≤ 32) (hab : b < a) :
    prefix_mask b < prefix_mask a := by
  unfold prefix_mask
  have h1 : 2 ^ (32 - a) < 2 ^ (32 - b) := Nat.pow_lt_pow_right (by norm_num) (by omega)
  have h2 : 2 ^ (32 - b) ≤ 2 ^ 32 := Nat.pow_le_pow_right (by norm_num) (by omega)
  norm_num at h2
  omega

theorem mask_len_le_of_le {m1 m2 : Nat} (h1 : is_prefix_mask m1) (h2 : is_prefix_mask m2)
    (hle : m1 ≤ m2) : mask_len m1 ≤ mask_len m2 := by
  obtain ⟨a, ha, rfl⟩ := h1
  obtain ⟨b, hb, rfl⟩ := h2
  rw [mask_len_prefix_mask a ha, mask_len_prefix_mask b hb]
  by_contra hcon
  have hlt : prefix_mask b < prefix_mask a := prefix_mask_lt ha (not_le.mp hcon)
  omega

theorem ip_checksum_set_checksum (h : iphdr) (c : Nat) :
    ip_checksum { h with checksum := c } = ip_checksum h := rfl

/-! ## Lemmas on byte order and the checksum -/

theorem bswap16_lt (x : Nat) : bswap16 x < 65536 := by
  unfold bswap16; omega

theorem bswap32_lt (x : Nat) : bswap32 x < 4294967296 := by
  unfold bswap32; omega

theorem bswap16_bswap16 (x : Nat) (h : x < 65536) : bswap16 (bswap16 x) = x := by
  unfold bswap16
  have h1 : (x % 256 * 256 + x / 256 % 256) % 256 = x / 256 % 256 := by omega
  have h2 : (x % 256 * 256 + x / 256 % 256) / 256 = x % 256 := by omega
  rw [h1, h2]
  omega

theorem bswap32_bytes (b0 b1 b2 b3 : Nat) (h0 : b0 < 256) (h1 : b1 < 256) (h2 : b2 < 256)
    (h3 : b3 < 256) :
    bswap32 (b0 * 16777216 + b1 * 65536 + b2 * 256 + b3) =
      b3 * 16777216 + b2 * 65536 + b1 * 256 + b0 := by
  unfold bswap32
  have e0 : (b0 * 16777216 + b1 * 65536 + b2 * 256 + b3) % 256 = b3 := by omega
  have e1 : (b0 * 16777216 + b1 * 65536 + b2 * 256 + b3) / 256 % 256 = b2 := by omega
  have e2 : (b0 * 16777216 + b1 * 65536 + b2 * 256 + b3) / 65536 % 256 = b1 := by omega
  have e3 : (b0 * 16777216 + b1 * 65536 + b2 * 256 + b3) / 16777216 % 256 = b0 := by omega
  rw [e0, e1, e2, e3]

theorem bswap32_bswap32 (x : Nat) (h : x < 4294967296) : bswap32 (bswap32 x) = x := by
  have hx : bswap32 x = (x % 256) * 16777216 + ((x / 256) % 256) * 65536 +
    ((x / 65536) % 256) * 256 + (x / 16777216) % 256 := rfl
  rw [hx, bswap32_bytes _ _ _ _ (by omega) (by omega) (by omega) (by omega)]
  have k1 : x / 65536 = x / 256 / 256 := by rw [Nat.div_div_eq_div_mul]
  have k2 : x / 16777216 = x / 256 / 256 / 256 := by
    rw [Nat.div_div_eq_div_mul, Nat.div_div_eq_div_mul]
  rw [k1, k2]
  omega

theorem checksum_fold_eq (s : Nat) : checksum_fold s =
    (4294967295 -
      ((s / 65536 + s % 65536) + (s / 65536 + s % 65536) / 65536) % 4294967296) % 65536 := by
  have h1 : s &&& 0xffff = s % 65536 := Nat.and_pow_two_sub_one_eq_mod s 16
  simp only [checksum_fold, Nat.shiftRight_eq_div_pow, h1]

theorem checksum_fold_small (t : Nat) (h : t < 65536) (s : Nat)
    (hs : s / 65536 + s % 65536 = t) : checksum_fold s = 65535 - t := by
  rw [checksum_fold_eq, hs]
  have h1 : t / 65536 = 0 := by omega
  rw [h1]
  have h2 : (t + 0) % 4294967296 = t := by omega
  rw [h2]
  have h3 : 4294967295 - t = 65535 - t + 65536 * 65535 := by omega
  rw [h3, Nat.add_mul_mod_self_left]
  omega

theorem checksum_fold_carry (t : Nat) (h : t < 65535) (s : Nat)
    (hs : s / 65536 + s % 65536 = 65536 + t) : checksum_fold s = 65534 - t := by
  rw [checksum_fold_eq, hs]
  have h1 : (65536 + t) / 65536 = 1 := by omega
  rw [h1]
  have h2 : (65536 + t + 1) % 4294967296 = 65536 + t + 1 := by omega
  rw [h2]
  have h3 : 4294967295 - (65536 + t + 1) = 65534 - t + 65536 * 65534 := by omega
  rw [h3, Nat.add_mul_mod_self_left]
  omega

theorem checksum_fold_verifies (s : Nat) (h : s < 1048576) :
    checksum_fold ((s + checksum_fold s) % 4294967296) = 0 := by
  have ha : s / 65536 < 16 := by omega
  have hb : s % 65536 < 65536 := by omega
  have hs : s = 65536 * (s / 65536) + s % 65536 := by omega
  generalize s / 65536 = a at ha hs
  generalize s % 65536 = b at hb hs
  have hfin : ∀ c, c + (a + b) = 65535 ∨ c + (a + b) = 131070 → c < 65536 →
      checksum_fold ((s + c) % 4294967296) = 0 := by
    intro c hc hlt
    have hT : (s + c) % 4294967296 = s + c := by omega
    rw [hT]
    have hq : (s + c) / 65536 + (s + c) % 65536 = 65535 := by
      rcases hc with hc | hc
      · have e : s + c = 65535 - a + 65536 * a := by omega
        have e1 : (s + c) / 65536 = a := by
          rw [e, Nat.add_mul_div_left _ _ (by norm_num)]
          have : (65535 - a) / 65536 = 0 := by omega
          omega
        have e2 : (s + c) % 65536 = 65535 - a := by
          rw [e, Nat.add_mul_mod_self_left]
          omega
        omega
      · have e : s + c = 65534 - a + 65536 * (a + 1) := by omega
        have e1 : (s + c) / 65536 = a + 1 := by
          rw [e, Nat.add_mul_div_left _ _ (by norm_num)]
          have : (65534 - a) / 65536 = 0 := by omega
          omega
        have e2 : (s + c) % 65536 = 65534 - a := by
          rw [e, Nat.add_mul_mod_self_left]
          omega
        omega
    rw [checksum_fold_small 65535 (by norm_num) _ hq]
  have hab : s / 65536 + s % 65536 = a + b := by
    have e1 : s / 65536 = a := by
      rw [hs, Nat.add_comm, Nat.add_mul_div_left _ _ (by norm_num)]
      have : b / 65536 = 0 := by omega
      omega
    have e2 : s % 65536 = b := by
      rw [hs, Nat.add_comm, Nat.add_mul_mod_self_left]
      omega
    omega
  by_cases hsm : a + b < 65536
  · have hc := checksum_fold_small (a + b) hsm s hab
    exact hfin _ (by omega) (by omega)
  · have hc := checksum_fold_carry (a + b - 65536) (by omega) s (by omega)
    exact hfin _ (by omega) (by omega)

/-- A header whose nine data words are 16-bit values and whose checksum field
holds `ip_checksum` of it passes the receiver's check. -/
theorem words_sum_lt (h : iphdr) (hw : ∀ w ∈ h.words, w < 65536) :
    h.words.foldl (fun acc w => (acc + w) % 4294967296) 0 < 1048576 := by
  have hstep : ∀ (l : List Nat) (acc : Nat), (∀ w ∈ l, w < 65536) →
      l.foldl (fun acc w => (acc + w) % 4294967296) acc ≤ acc + 65536 * l.length := by
    intro l
    induction l with
    | nil => intro acc _; simp
    | cons a t ih =>
      intro acc hl
      have ha : a < 65536 := hl a (List.mem_cons_self _ _)
      have ht := ih ((acc + a) % 4294967296) (fun w hw => hl w (List.mem_cons_of_mem _ hw))
      have hmod : (acc + a) % 4294967296 ≤ acc + a := Nat.mod_le _ _
      simp only [List.foldl_cons, List.length_cons]
      omega
  have hlen : h.words.length = 10 := rfl
  have := hstep h.words 0 hw
  omega

theorem header_verifies_of_checksum (h : iphdr)
    (hw : ∀ w ∈ h.words, w < 65536) (hc : h.checksum = ip_checksum h) :
    header_verifies h := by
  have hS := words_sum_lt h hw
  have hv := checksum_fold_verifies _ hS
  unfold header_verifies
  rw [hc]
  exact hv

theorem get_next_hop_eq (entry : rt_entry_t) (dst : Nat) :
    get_next_hop entry dst = entry.gw.getD dst := by
  unfold get_next_hop
  cases entry.gw <;> rfl

theorem lpm_step_some (dst : Nat) (s e : rt_entry_t) :
    lpm_step dst (some s) e =
      if rt_match dst e ∧ s.mask < e.mask then some e else some s := by
  unfold lpm_step rt_match
  by_cases hm : (dst &&& e.mask) = (e.dest &&& e.mask)
  · by_cases hlt : s.mask < e.mask <;> simp [hm, hlt]
  · simp [hm]

theorem lpm_fold_first (dst : Nat) :
    ∀ (l : List rt_entry_t) (sel : Option rt_entry_t) (r : rt_entry_t),
      l.foldl (lpm_step dst) sel = some r →
        (sel = some r ∧ ∀ e ∈ l, rt_match dst e → e.mask ≤ r.mask) ∨
        (∃ pre post, l = pre ++ r :: post ∧ rt_match dst r ∧
          (∀ s, sel = some s → s.mask < r.mask) ∧
          (∀ e ∈ pre, rt_match dst e → e.mask < r.mask) ∧
          (∀ e ∈ post, rt_match dst e → e.mask ≤ r.mask)) := by
  intro l
  induction l with
  | nil =>
    intro sel r h
    simp only [List.foldl_nil] at h
    exact Or.inl ⟨h, fun e he => by cases he⟩
  | cons a t ih =>
    intro sel r h
    simp only [List.foldl_cons] at h
    by_cases hm : (dst &&& a.mask) = (a.dest &&& a.mask)
    · cases sel with
      | none =>
        have hstep : lpm_step dst none a = some a := by simp [lpm_step, hm]
        rw [hstep] at h
        rcases ih _ _ h with ⟨hr, hall⟩ | ⟨pre, post, ht, hr, hsel, hpre, hpost⟩
        · cases hr
          exact Or.inr ⟨[], t, rfl, hm, fun s hs => (by cases hs), fun e he => (by cases he), hall⟩
        · refine Or.inr ⟨a :: pre, post, by rw [ht]; rfl, hr, fun s hs => (by cases hs), ?_, hpost⟩
          intro e he hem
          rcases List.mem_cons.mp he with rfl | he
          · exact hsel e rfl
          · exact hpre e he hem
      | some s =>
        by_cases hlt : s.mask < a.mask
        · have hstep : lpm_step dst (some s) a = some a := by simp [lpm_step, hm, hlt]
          rw [hstep] at h
          rcases ih _ _ h with ⟨hr, hall⟩ | ⟨pre, post, ht, hr, hsel, hpre, hpost⟩
          · cases hr
            refine Or.inr ⟨[], t, rfl, hm, ?_, fun e he => (by cases he), hall⟩
            intro s2 hs2; cases hs2; exact hlt
          · have ha : a.mask < r.mask := hsel a rfl
            refine Or.inr ⟨a :: pre, post, by rw [ht]; rfl, hr, ?_, ?_, hpost⟩
            · intro s2 hs2; cases hs2; exact lt_trans hlt ha
            · intro e he hem
              rcases List.mem_cons.mp he with rfl | he
              · exact ha
              · exact hpre e he hem
        · have hstep : lpm_step dst (some s) a = some s := by simp [lpm_step, hm, hlt]
          rw [hstep] at h
          rcases ih _ _ h with ⟨hr, hall⟩ | ⟨pre, post, ht, hr, hsel, hpre, hpost⟩
          · cases hr
            refine Or.inl ⟨rfl, ?_⟩
            intro e he hem
            rcases List.mem_cons.mp he with rfl | he
            · exact not_lt.mp hlt
            · exact hall e he hem
          · have hs : s.mask < r.mask := hsel s rfl
            refine Or.inr ⟨a :: pre, post, by rw [ht]; rfl, hr, ?_, ?_, hpost⟩
            · intro s2 hs2; cases hs2; exact hs
            · intro e he hem
              rcases List.mem_cons.mp he with rfl | he
              · exact lt_of_le_of_lt (not_lt.mp hlt) hs
              · exact hpre e he hem
    · have hstep : lpm_step dst sel a = sel := by simp [lpm_step, hm]
      rw [hstep] at h
      rcases ih _ _ h with ⟨hr, hall⟩ | ⟨pre, post, ht, hr, hsel, hpre, hpost⟩
      · refine Or.inl ⟨hr, ?_⟩
        intro e he hem
        rcases List.mem_cons.mp he with rfl | he
        · exact absurd hem hm
        · exact hall e he hem
      · refine Or.inr ⟨a :: pre, post, by rw [ht]; rfl, hr, hsel, ?_, hpost⟩
        intro e he hem
        rcases List.mem_cons.mp he with rfl | he
        · exact absurd hem hm
        · exact hpre e he hem

/-- A returned route is a matching member of the table with the greatest mask
among the matching routes. -/
theorem lpm_some_max (rtable : List rt_entry_t) (dst : Nat) (r : rt_entry_t)
    (h : longest_prefix_match rtable dst = some r) :
    r ∈ rtable ∧ rt_match dst r ∧ ∀ e ∈ rtable, rt_match dst e → e.mask ≤ r.mask := by
  obtain ⟨h1, _, h3⟩ := lpm_fold_some dst rtable none r h
  rcases h1 with ⟨hr, hrm⟩ | hr
  · exact ⟨hr, hrm, h3⟩
  · cases hr

/-- Some route is returned as soon as one route matches. -/
theorem lpm_some_of_match (rtable : List rt_entry_t) (dst : Nat) (e : rt_entry_t)
    (he : e ∈ rtable) (hem : rt_match dst e) :
    ∃ r, longest_prefix_match rtable dst = some r := by
  cases hres : longest_prefix_match rtable dst with
  | none => exact absurd hem (((lpm_fold_none dst rtable none).mp hres).2 e he)
  | some r => exact ⟨r, rfl⟩

/-! ## Theorems -/

/-- C1: if `longest_prefix_match` returns a route `r` for `dst`, then `r` is a
member of the table, `r` matches `dst`, and every route of the table that
matches `dst` has a mask no greater than `r.mask` (unsigned comparison). -/
theorem longest_prefix_match_sound (rtable : List rt_entry_t) (dst : Nat) (r : rt_entry_t)
    (h : longest_prefix_match rtable dst = some r) :
    r ∈ rtable ∧ (dst &&& r.mask) = (r.dest &&& r.mask) ∧
      ∀ e ∈ rtable, (dst &&& e.mask) = (e.dest &&& e.mask) → e.mask ≤ r.mask := by
  obtain ⟨h1, _, h3⟩ := lpm_fold_some dst rtable none r h
  rcases h1 with ⟨hr, hrm⟩ | hr
  · exact ⟨hr, hrm, h3⟩
  · cases hr

/-- C2: `longest_prefix_match` returns none exactly when no route of the table
matches `dst`; so it returns none on the empty table and some route whenever
at least one route matches. -/
theorem longest_prefix_match_none_iff (rtable : List rt_entry_t) (dst : Nat) :
    (longest_prefix_match rtable dst = none ↔
        ∀ e ∈ rtable, ¬ (dst &&& e.mask) = (e.dest &&& e.mask)) ∧
      longest_prefix_match [] dst = none ∧
      ((∃ e ∈ rtable, (dst &&& e.mask) = (e.dest &&& e.mask)) →
        ∃ r, longest_prefix_match rtable dst = some r) := by
  have hiff : longest_prefix_match rtable dst = none ↔
      ∀ e ∈ rtable, ¬ (dst &&& e.mask) = (e.dest &&& e.mask) := by
    unfold longest_prefix_match
    rw [lpm_fold_none]
    simp [rt_match]
  refine ⟨hiff, rfl, ?_⟩
  rintro ⟨e, he, hem⟩
  cases hres : longest_prefix_match rtable dst with
  | none => exact absurd hem (hiff.mp hres e he)
  | some r => exact ⟨r, rfl⟩

/-- Witness for C1: on the table 10.0.0.0/8, 10.0.1.0/24 the lookup of 10.0.1.5
returns the /24 route, which is in the table, matches and has the greatest
mask among the matching routes. -/
theorem longest_prefix_match_sound_witness :
    longest_prefix_match [route8, route24] addr_10_0_1_5 = some route24 ∧
      (route24 ∈ [route8, route24] ∧
        (addr_10_0_1_5 &&& route24.mask) = (route24.dest &&& route24.mask) ∧
        ∀ e ∈ [route8, route24],
          (addr_10_0_1_5 &&& e.mask) = (e.dest &&& e.mask) → e.mask ≤ route24.mask) :=
  ⟨by decide, longest_prefix_match_sound [route8, route24] addr_10_0_1_5 route24 (by decide)⟩

/-- C3: on a table all of whose masks are contiguous leading ones, if exactly
one route matches `dst` then `longest_prefix_match` returns it, and whenever
some route matches, the returned route is a matching route whose prefix length
(number of one bits of the mask) is at least that of every matching route, and
strictly greater than that of every matching route of a different prefix
length. With routes 10.0.0.0/8 and 10.0.1.0/24 in either order, the lookup of
10.0.1.5 returns the /24 route and the lookup of 10.0.2.5 the /8 route. -/
theorem longest_prefix_match_prefix_len (rtable : List rt_entry_t) (dst : Nat)
    (hmask : ∀ e ∈ rtable, is_prefix_mask e.mask) :
    (∀ e ∈ rtable, rt_match dst e → (∀ e2 ∈ rtable, rt_match dst e2 → e2 = e) →
        longest_prefix_match rtable dst = some e) ∧
      ((∃ e ∈ rtable, rt_match dst e) →
        ∃ r, longest_prefix_match rtable dst = some r ∧ r ∈ rtable ∧ rt_match dst r ∧
          ∀ e ∈ rtable, rt_match dst e →
            mask_len e.mask ≤ mask_len r.mask ∧
              (mask_len e.mask ≠ mask_len r.mask → mask_len e.mask < mask_len r.mask)) ∧
      (is_prefix_mask route8.mask ∧ is_prefix_mask route24.mask ∧
        longest_prefix_match [route8, route24] addr_10_0_1_5 = some route24 ∧
        longest_prefix_match [route24, route8] addr_10_0_1_5 = some route24 ∧
        longest_prefix_match [route8, route24] addr_10_0_2_5 = some route8 ∧
        longest_prefix_match [route24, route8] addr_10_0_2_5 = some route8) := by
  have hsome : ∀ e ∈ rtable, rt_match dst e →
      ∃ r, longest_prefix_match rtable dst = some r ∧ r ∈ rtable ∧ rt_match dst r ∧
        ∀ e2 ∈ rtable, rt_match dst e2 → e2.mask ≤ r.mask := by
    intro e he hem
    cases hres : longest_prefix_match rtable dst with
    | none =>
      have hno := ((lpm_fold_none dst rtable none).mp hres).2
      exact absurd hem (hno e he)
    | some r =>
      obtain ⟨h1, _, h3⟩ := lpm_fold_some dst rtable none r hres
      rcases h1 with ⟨hr, hrm⟩ | hr
      · exact ⟨r, rfl, hr, hrm, h3⟩
      · cases hr
  refine ⟨?_, ?_, ?_⟩
  · intro e he hem huniq
    obtain ⟨r, hr, hrin, hrm, _⟩ := hsome e he hem
    rw [hr, huniq r hrin hrm]
  · rintro ⟨e, he, hem⟩
    obtain ⟨r, hr, hrin, hrm, hmax⟩ := hsome e he hem
    refine ⟨r, hr, hrin, hrm, ?_⟩
    intro e2 he2 hem2
    have hle : mask_len e2.mask ≤ mask_len r.mask :=
      mask_len_le_of_le (hmask e2 he2) (hmask r hrin) (hmax e2 he2 hem2)
    exact ⟨hle, fun hne => lt_of_le_of_ne hle hne⟩
  · refine ⟨⟨8, by decide, by decide⟩, ⟨24, by decide, by decide⟩, ?_, ?_, ?_, ?_⟩ <;> decide

/-- Witness for C3: the table 10.0.0.0/8, 10.0.1.0/24 has prefix masks only, and
the general statement applies to it at destination 10.0.1.5. -/
theorem longest_prefix_match_prefix_len_witness :
    (∀ e ∈ [route8, route24], is_prefix_mask e.mask) ∧
      ((∃ e ∈ [route8, route24], rt_match addr_10_0_1_5 e) →
        ∃ r, longest_prefix_match [route8, route24] addr_10_0_1_5 = some r ∧
          r ∈ [route8, route24] ∧ rt_match addr_10_0_1_5 r ∧
          ∀ e ∈ [route8, route24], rt_match addr_10_0_1_5 e →
            mask_len e.mask ≤ mask_len r.mask ∧
              (mask_len e.mask ≠ mask_len r.mask → mask_len e.mask < mask_len r.mask)) :=
  have hmask : ∀ e ∈ [route8, route24], is_prefix_mask e.mask := by
    intro e he
    simp only [List.mem_cons, List.mem_singleton, List.not_mem_nil, or_false] at he
    rcases he with rfl | rfl
    · exact ⟨8, by decide, by decide⟩
    · exact ⟨24, by decide, by decide⟩
  ⟨hmask, (longest_prefix_match_prefix_len [route8, route24] addr_10_0_1_5 hmask).2.1⟩

/-- C4: a transit packet (destination neither the receiving interface's address
nor the routing-protocol multicast address) with TTL `t ≥ 2` whose destination
is matched by some route is handed to the transmit capability exactly once,
with no ICMP message and no release; the transmitted header has TTL `t - 1`
(at least 1, no 8-bit wrap) and its checksum field is the header checksum of
the header with the decremented TTL. -/
theorem handle_ip_packet_transit_forward (rtable : List rt_entry_t) (iface : iface_info_t)
    (packet : Packet) (len : Int)
    (hu8 : packet.ip.ttl < 256)
    (hlocal : ntohl packet.ip.daddr ≠ iface.ip)
    (hmcast : packet.ip.daddr ≠ htonl MOSPF_ALLSPFRouters)
    (httl : 2 ≤ packet.ip.ttl)
    (hroute : ∃ e ∈ rtable, rt_match (ntohl packet.ip.daddr) e) :
    ∃ entry sent,
      longest_prefix_match rtable (ntohl packet.ip.daddr) = some entry ∧
      handle_ip_packet rtable iface packet len =
        Outcome.returned [Action.iface_send_packet_by_arp entry.iface
          (get_next_hop entry (ntohl packet.ip.daddr)) sent len] ∧
      (handle_ip_packet rtable iface packet len).trace.countP Action.isTransmit = 1 ∧
      (handle_ip_packet rtable iface packet len).trace.countP Action.isIcmp = 0 ∧
      (handle_ip_packet rtable iface packet len).trace.countP Action.isFree = 0 ∧
      sent.ip.ttl = packet.ip.ttl - 1 ∧ 1 ≤ sent.ip.ttl ∧ sent.ip.ttl < 256 ∧
      sent.ip.checksum = ip_checksum sent.ip ∧
      sent.ip.checksum = ip_checksum { packet.ip with ttl := packet.ip.ttl - 1 } := by
  obtain ⟨e, he, hem⟩ := hroute
  cases hres : longest_prefix_match rtable (ntohl packet.ip.daddr) with
  | none =>
    have hno := ((lpm_fold_none _ rtable none).mp hres).2
    exact absurd hem (hno e he)
  | some entry =>
    have hdec : (packet.ip.ttl + 255) % 256 = packet.ip.ttl - 1 := by omega
    have hgt : ¬ packet.ip.ttl ≤ 1 := by omega
    have hrun : handle_ip_packet rtable iface packet len =
        Outcome.returned [Action.iface_send_packet_by_arp entry.iface
          (get_next_hop entry (ntohl packet.ip.daddr))
          { packet with ip := { packet.ip with
              ttl := packet.ip.ttl - 1,
              checksum := ip_checksum { packet.ip with ttl := packet.ip.ttl - 1 } } } len] := by
      simp only [handle_ip_packet, ip_forward_packet, if_neg hlocal, if_neg hmcast, if_neg hgt,
        hres, hdec]
    refine ⟨entry, _, rfl, hrun, ?_, ?_, ?_, rfl, ?_, ?_, rfl, rfl⟩
    · rw [hrun]; rfl
    · rw [hrun]; rfl
    · rw [hrun]; rfl
    · show 1 ≤ packet.ip.ttl - 1
      omega
    · show packet.ip.ttl - 1 < 256
      omega

/-- Witness for C4: a UDP packet for 10.0.1.5 arriving on interface A with
TTL 2 is sent out once with TTL 1. -/
theorem handle_ip_packet_transit_forward_witness :
    (sample_packet addr_10_0_1_5 2 17).ip.ttl = 2 ∧
      ∃ entry sent,
        handle_ip_packet [route8, route24] ifaceA (sample_packet addr_10_0_1_5 2 17) 42 =
          Outcome.returned [Action.iface_send_packet_by_arp entry.iface
            (get_next_hop entry (ntohl (sample_packet addr_10_0_1_5 2 17).ip.daddr)) sent 42] ∧
        sent.ip.ttl = 1 ∧ sent.ip.checksum = ip_checksum sent.ip := by
  obtain ⟨entry, sent, _, hrun, _, _, _, httl, _, _, hck, _⟩ :=
    handle_ip_packet_transit_forward [route8, route24] ifaceA
      (sample_packet addr_10_0_1_5 2 17) 42 (by decide) (by decide) (by decide) (by decide)
      ⟨route24, by decide, by decide⟩
  exact ⟨rfl, entry, sent, hrun, httl, hck⟩

/-- C5: a transit packet whose TTL is 0 or 1 yields, on every routing table,
exactly one ICMP message, time-exceeded with code TTL-expired, referencing the
packet with its header unmodified, then one release of the buffer; nothing is
handed to the transmit capability and the table has no influence. -/
theorem handle_ip_packet_ttl_expired (rtable : List rt_entry_t) (iface : iface_info_t)
    (packet : Packet) (len : Int)
    (hlocal : ntohl packet.ip.daddr ≠ iface.ip)
    (hmcast : packet.ip.daddr ≠ htonl MOSPF_ALLSPFRouters)
    (httl : packet.ip.ttl ≤ 1) :
    handle_ip_packet rtable iface packet len =
        Outcome.returned [Action.icmp_send_packet packet len ICMP_TIME_EXCEEDED ICMP_EXC_TTL,
          Action.free packet] ∧
      (handle_ip_packet rtable iface packet len).trace.countP Action.isIcmp = 1 ∧
      (handle_ip_packet rtable iface packet len).trace.countP Action.isFree = 1 ∧
      (handle_ip_packet rtable iface packet len).trace.countP Action.isTransmit = 0 ∧
      ∀ rtable2 : List rt_entry_t,
        handle_ip_packet rtable2 iface packet len = handle_ip_packet rtable iface packet len := by
  have hrun : ∀ rt : List rt_entry_t, handle_ip_packet rt iface packet len =
      Outcome.returned [Action.icmp_send_packet packet len ICMP_TIME_EXCEEDED ICMP_EXC_TTL,
        Action.free packet] := by
    intro rt
    simp only [handle_ip_packet, ip_forward_packet, if_neg hlocal, if_neg hmcast, if_pos httl]
  refine ⟨hrun rtable, ?_, ?_, ?_, ?_⟩
  · rw [hrun]; rfl
  · rw [hrun]; rfl
  · rw [hrun]; rfl
  · intro rtable2; rw [hrun, hrun]

/-- Witness for C5: a UDP packet for 10.0.1.5 arriving on interface A with
TTL 1, with a matching route in the table. -/
theorem handle_ip_packet_ttl_expired_witness :
    (sample_packet addr_10_0_1_5 1 17).ip.ttl = 1 ∧
      handle_ip_packet [route8, route24] ifaceA (sample_packet addr_10_0_1_5 1 17) 42 =
        Outcome.returned [Action.icmp_send_packet (sample_packet addr_10_0_1_5 1 17) 42
          ICMP_TIME_EXCEEDED ICMP_EXC_TTL, Action.free (sample_packet addr_10_0_1_5 1 17)] :=
  ⟨rfl, (handle_ip_packet_ttl_expired [route8, route24] ifaceA
    (sample_packet addr_10_0_1_5 1 17) 42 (by decide) (by decide) (by decide)).1⟩

/-- C6: a transit packet with TTL at least 2 whose destination matches no route
yields exactly one ICMP message, destination-unreachable with code
net-unreachable, then one release of the buffer, and nothing is handed to the
transmit capability. -/
theorem handle_ip_packet_no_route (rtable : List rt_entry_t) (iface : iface_info_t)
    (packet : Packet) (len : Int)
    (hlocal : ntohl packet.ip.daddr ≠ iface.ip)
    (hmcast : packet.ip.daddr ≠ htonl MOSPF_ALLSPFRouters)
    (httl : 2 ≤ packet.ip.ttl)
    (hnone : ∀ e ∈ rtable, ¬ rt_match (ntohl packet.ip.daddr) e) :
    ∃ buf : Packet,
      handle_ip_packet rtable iface packet len =
        Outcome.returned [Action.icmp_send_packet buf len ICMP_DEST_UNREACH ICMP_NET_UNREACH,
          Action.free buf] ∧
      buf.data = packet.data ∧ buf.ip.saddr = packet.ip.saddr ∧
      buf.ip.daddr = packet.ip.daddr ∧
      (handle_ip_packet rtable iface packet len).trace.countP Action.isIcmp = 1 ∧
      (handle_ip_packet rtable iface packet len).trace.countP Action.isFree = 1 ∧
      (handle_ip_packet rtable iface packet len).trace.countP Action.isTransmit = 0 := by
  have hres : longest_prefix_match rtable (ntohl packet.ip.daddr) = none :=
    (lpm_fold_none _ rtable none).mpr ⟨rfl, hnone⟩
  have hgt : ¬ packet.ip.ttl ≤ 1 := by omega
  have hrun : handle_ip_packet rtable iface packet len =
      Outcome.returned [Action.icmp_send_packet
          { packet with ip := { packet.ip with
              ttl := (packet.ip.ttl + 255) % 256,
              checksum := ip_checksum { packet.ip with ttl := (packet.ip.ttl + 255) % 256 } } }
          len ICMP_DEST_UNREACH ICMP_NET_UNREACH,
        Action.free
          { packet with ip := { packet.ip with
              ttl := (packet.ip.ttl + 255) % 256,
              checksum := ip_checksum
                { packet.ip with ttl := (packet.ip.ttl + 255) % 256 } } }] := by
    simp only [handle_ip_packet, ip_forward_packet, if_neg hlocal, if_neg hmcast, if_neg hgt,
      hres]
  refine ⟨_, hrun, rfl, rfl, rfl, ?_, ?_, ?_⟩
  · rw [hrun]; rfl
  · rw [hrun]; rfl
  · rw [hrun]; rfl

/-- Witness for C6: a UDP packet for 10.0.2.5 with TTL 64 arriving on interface A
when the only route is 10.0.1.0/24. -/
theorem handle_ip_packet_no_route_witness :
    (∀ e ∈ [route24], ¬ rt_match (ntohl (sample_packet addr_10_0_2_5 64 17).ip.daddr) e) ∧
      ∃ buf : Packet,
        handle_ip_packet [route24] ifaceA (sample_packet addr_10_0_2_5 64 17) 42 =
          Outcome.returned [Action.icmp_send_packet buf 42 ICMP_DEST_UNREACH ICMP_NET_UNREACH,
            Action.free buf] := by
  have hnone : ∀ e ∈ [route24],
      ¬ rt_match (ntohl (sample_packet addr_10_0_2_5 64 17).ip.daddr) e := by decide
  obtain ⟨buf, hrun, _⟩ :=
    handle_ip_packet_no_route [route24] ifaceA (sample_packet addr_10_0_2_5 64 17) 42
      (by decide) (by decide) (by decide) hnone
  exact ⟨hnone, buf, hrun⟩

/-- C7: a packet addressed to the receiving interface's own address that carries
an ICMP echo request yields, on every routing table, exactly one ICMP message,
an echo reply with code 0, then exactly one release of the inbound buffer; the
inbound packet is never handed to the transmit capability nor to the
routing-protocol collaborator. -/
theorem handle_ip_packet_echo_request (rtable : List rt_entry_t) (iface : iface_info_t)
    (packet : Packet) (len : Int)
    (hlocal : ntohl packet.ip.daddr = iface.ip)
    (hproto : packet.ip.protocol = IPPROTO_ICMP)
    (htype : icmp_type packet = ICMP_ECHOREQUEST) :
    handle_ip_packet rtable iface packet len =
        Outcome.returned [Action.icmp_send_packet packet len ICMP_ECHOREPLY 0,
          Action.free packet] ∧
      (handle_ip_packet rtable iface packet len).trace.countP Action.isIcmp = 1 ∧
      (handle_ip_packet rtable iface packet len).trace.countP Action.isFree = 1 ∧
      (handle_ip_packet rtable iface packet len).trace.countP Action.isTransmit = 0 ∧
      (handle_ip_packet rtable iface packet len).trace.countP Action.isMospf = 0 := by
  have hrun : handle_ip_packet rtable iface packet len =
      Outcome.returned [Action.icmp_send_packet packet len ICMP_ECHOREPLY 0,
        Action.free packet] := by
    simp only [handle_ip_packet, if_pos hlocal, if_pos hproto, if_pos htype, List.cons_append,
      List.nil_append]
  refine ⟨hrun, ?_, ?_, ?_, ?_⟩
  · rw [hrun]; rfl
  · rw [hrun]; rfl
  · rw [hrun]; rfl
  · rw [hrun]; rfl

/-- Witness for C7: an echo request to 10.0.0.1 arriving on interface A. -/
theorem handle_ip_packet_echo_request_witness :
    ntohl (sample_packet ifaceA.ip 64 IPPROTO_ICMP).ip.daddr = ifaceA.ip ∧
      handle_ip_packet [route8] ifaceA (sample_packet ifaceA.ip 64 IPPROTO_ICMP) 98 =
        Outcome.returned [Action.icmp_send_packet (sample_packet ifaceA.ip 64 IPPROTO_ICMP) 98
          ICMP_ECHOREPLY 0, Action.free (sample_packet ifaceA.ip 64 IPPROTO_ICMP)] :=
  ⟨by decide, (handle_ip_packet_echo_request [route8] ifaceA
    (sample_packet ifaceA.ip 64 IPPROTO_ICMP) 98 (by decide) (by decide) (by decide)).1⟩

/-- C8, as stated, fails: a UDP packet addressed to the routing-protocol
multicast address arriving on interface A is not handed to the
routing-protocol collaborator and is not released; the assertion on the
protocol fails before anything is done. -/
theorem handle_ip_packet_multicast_any_protocol_fails :
    mcast_udp_packet.ip.daddr = htonl MOSPF_ALLSPFRouters ∧
      handle_ip_packet [route8] ifaceA mcast_udp_packet 48 = Outcome.assert_failed [] ∧
      handle_ip_packet [route8] ifaceA mcast_udp_packet 48 ≠
        Outcome.returned [Action.handle_mospf_packet ifaceA mcast_udp_packet 48,
          Action.free mcast_udp_packet] ∧
      (handle_ip_packet [route8] ifaceA mcast_udp_packet 48).trace.countP Action.isMospf = 0 ∧
      (handle_ip_packet [route8] ifaceA mcast_udp_packet 48).trace.countP Action.isFree = 0 := by
  decide

/-- C8, amended: a packet addressed to the routing-protocol multicast address
whose payload protocol is the routing protocol is, for every receiving
interface and every routing table, handed with its receiving interface to the
routing-protocol collaborator exactly once and then released; the outcome is
the same on any two routing tables, and there is no ICMP message and no
transmission. -/
theorem handle_ip_packet_multicast_mospf (rtable : List rt_entry_t) (iface : iface_info_t)
    (packet : Packet) (len : Int)
    (hmcast : packet.ip.daddr = htonl MOSPF_ALLSPFRouters)
    (hproto : packet.ip.protocol = IPPROTO_MOSPF) :
    handle_ip_packet rtable iface packet len =
        Outcome.returned [Action.handle_mospf_packet iface packet len, Action.free packet] ∧
      (handle_ip_packet rtable iface packet len).trace.countP Action.isMospf = 1 ∧
      (handle_ip_packet rtable iface packet len).trace.countP Action.isFree = 1 ∧
      (handle_ip_packet rtable iface packet len).trace.countP Action.isIcmp = 0 ∧
      (handle_ip_packet rtable iface packet len).trace.countP Action.isTransmit = 0 ∧
      ∀ rtable2 : List rt_entry_t,
        handle_ip_packet rtable2 iface packet len = handle_ip_packet rtable iface packet len := by
  have hnicmp : ¬ packet.ip.protocol = IPPROTO_ICMP := by
    rw [hproto]; decide
  have hrun : ∀ rt : List rt_entry_t, handle_ip_packet rt iface packet len =
      Outcome.returned [Action.handle_mospf_packet iface packet len, Action.free packet] := by
    intro rt
    by_cases hlocal : ntohl packet.ip.daddr = iface.ip
    · simp only [handle_ip_packet, if_pos hlocal, if_neg hnicmp, if_pos hproto,
        List.cons_append, List.nil_append]
    · simp only [handle_ip_packet, if_neg hlocal, if_pos hmcast, if_pos hproto]
  refine ⟨hrun rtable, ?_, ?_, ?_, ?_, ?_⟩
  · rw [hrun]; rfl
  · rw [hrun]; rfl
  · rw [hrun]; rfl
  · rw [hrun]; rfl
  · intro rtable2; rw [hrun, hrun]

/-- Witness for C8 amended: a routing-protocol packet addressed to the multicast
address arriving on interface B. -/
theorem handle_ip_packet_multicast_mospf_witness :
    (sample_packet MOSPF_ALLSPFRouters 1 IPPROTO_MOSPF).ip.daddr = htonl MOSPF_ALLSPFRouters ∧
      (sample_packet MOSPF_ALLSPFRouters 1 IPPROTO_MOSPF).ip.protocol = IPPROTO_MOSPF ∧
      handle_ip_packet [] ifaceB (sample_packet MOSPF_ALLSPFRouters 1 IPPROTO_MOSPF) 60 =
        Outcome.returned
          [Action.handle_mospf_packet ifaceB (sample_packet MOSPF_ALLSPFRouters 1 IPPROTO_MOSPF) 60,
            Action.free (sample_packet MOSPF_ALLSPFRouters 1 IPPROTO_MOSPF)] :=
  ⟨rfl, rfl, (handle_ip_packet_multicast_mospf [] ifaceB
    (sample_packet MOSPF_ALLSPFRouters 1 IPPROTO_MOSPF) 60 rfl rfl).1⟩

/-- C9, as stated, fails: for an ICMP packet addressed to the routing-protocol
multicast address arriving on interface B, the actions of `handle_ip_packet`
contain neither a release nor a hand-off to the transmit capability. -/
theorem handle_ip_packet_disposal_fails :
    ¬ exactly_one_disposal (handle_ip_packet [] ifaceB mcast_icmp_packet 98).trace ∧
      (handle_ip_packet [] ifaceB mcast_icmp_packet 98).trace.countP Action.isFree = 0 ∧
      (handle_ip_packet [] ifaceB mcast_icmp_packet 98).trace.countP Action.isTransmit = 0 := by
  decide

/-- C9, amended: on every input on which the protocol assertion of
`handle_ip_packet` does not fail (the destination is the receiving interface's
address, or is not the multicast address, or the protocol is the routing
protocol), `handle_ip_packet` returns and its actions contain exactly one
disposal of the buffer: one release and no hand-off to the transmit
capability, or one hand-off and no release. The actions of `ip_send_packet`
contain exactly one disposal on every input. -/
theorem disposal_exactly_once (rtable : List rt_entry_t) (iface : iface_info_t)
    (packet : Packet) (len : Int) :
    ((ntohl packet.ip.daddr = iface.ip ∨ packet.ip.daddr ≠ htonl MOSPF_ALLSPFRouters ∨
        packet.ip.protocol = IPPROTO_MOSPF) →
      ∃ t, handle_ip_packet rtable iface packet len = Outcome.returned t ∧
        exactly_one_disposal t) ∧
      exactly_one_disposal (ip_send_packet rtable packet len) := by
  have hfwd : ∀ dst : Nat, exactly_one_disposal (ip_forward_packet rtable dst packet len) := by
    intro dst
    unfold ip_forward_packet
    by_cases httl : packet.ip.ttl ≤ 1
    · rw [if_pos httl]; exact Or.inl ⟨rfl, rfl⟩
    · rw [if_neg httl]
      cases longest_prefix_match rtable dst with
      | none => exact Or.inl ⟨rfl, rfl⟩
      | some entry => exact Or.inr ⟨rfl, rfl⟩
  constructor
  · intro hok
    by_cases hlocal : ntohl packet.ip.daddr = iface.ip
    · by_cases hicmp : packet.ip.protocol = IPPROTO_ICMP
      · by_cases htype : icmp_type packet = ICMP_ECHOREQUEST
        · refine ⟨[Action.icmp_send_packet packet len ICMP_ECHOREPLY 0, Action.free packet],
            ?_, Or.inl ⟨rfl, rfl⟩⟩
          simp only [handle_ip_packet, if_pos hlocal, if_pos hicmp, if_pos htype,
            List.cons_append, List.nil_append]
        · refine ⟨[Action.free packet], ?_, Or.inl ⟨rfl, rfl⟩⟩
          simp only [handle_ip_packet, if_pos hlocal, if_pos hicmp, if_neg htype,
            List.nil_append]
      · by_cases hmospf : packet.ip.protocol = IPPROTO_MOSPF
        · refine ⟨[Action.handle_mospf_packet iface packet len, Action.free packet],
            ?_, Or.inl ⟨rfl, rfl⟩⟩
          simp only [handle_ip_packet, if_pos hlocal, if_neg hicmp, if_pos hmospf,
            List.cons_append, List.nil_append]
        · refine ⟨[Action.free packet], ?_, Or.inl ⟨rfl, rfl⟩⟩
          simp only [handle_ip_packet, if_pos hlocal, if_neg hicmp, if_neg hmospf,
            List.nil_append]
    · by_cases hmcast : packet.ip.daddr = htonl MOSPF_ALLSPFRouters
      · have hmospf : packet.ip.protocol = IPPROTO_MOSPF := by
          rcases hok with h | h | h
          · exact absurd h hlocal
          · exact absurd hmcast h
          · exact h
        refine ⟨[Action.handle_mospf_packet iface packet len, Action.free packet],
          ?_, Or.inl ⟨rfl, rfl⟩⟩
        simp only [handle_ip_packet, if_neg hlocal, if_pos hmcast, if_pos hmospf]
      · refine ⟨ip_forward_packet rtable (ntohl packet.ip.daddr) packet len, ?_, hfwd _⟩
        simp only [handle_ip_packet, if_neg hlocal, if_neg hmcast]
  · cases hres : longest_prefix_match rtable (ntohl packet.ip.daddr) with
    | none =>
      have hrun : ip_send_packet rtable packet len =
          [Action.log_error (ntohl packet.ip.daddr), Action.free packet] := by
        simp only [ip_send_packet, hres]
      rw [hrun]; exact Or.inl ⟨rfl, rfl⟩
    | some entry =>
      have hrun : ip_send_packet rtable packet len =
          [Action.iface_send_packet_by_arp entry.iface
            (get_next_hop entry (ntohl packet.ip.daddr)) packet len] := by
        simp only [ip_send_packet, hres]
      rw [hrun]; exact Or.inr ⟨rfl, rfl⟩

/-- Witness for C9 amended: a UDP packet for 10.0.1.5 with TTL 64 arriving on
interface A is not addressed to the multicast address, and its handling
disposes of the buffer exactly once. -/
theorem disposal_exactly_once_witness :
    (sample_packet addr_10_0_1_5 64 17).ip.daddr ≠ htonl MOSPF_ALLSPFRouters ∧
      ∃ t, handle_ip_packet [route8, route24] ifaceA (sample_packet addr_10_0_1_5 64 17) 42 =
          Outcome.returned t ∧ exactly_one_disposal t :=
  ⟨by decide, (disposal_exactly_once [route8, route24] ifaceA
    (sample_packet addr_10_0_1_5 64 17) 42).1 (Or.inr (Or.inl (by decide)))⟩

/-- C10: `ip_send_packet` looks up the header destination converted to host
order. If no route matches, it releases the buffer (after logging), with no
ICMP message and no transmission. If a route matches, it hands the packet to
the transmit capability exactly once, the packet being the input unchanged
(every header field, TTL and checksum included), and does nothing else. -/
theorem ip_send_packet_spec (rtable : List rt_entry_t) (packet : Packet) (len : Int) :
    ((∀ e ∈ rtable, ¬ rt_match (ntohl packet.ip.daddr) e) →
        ip_send_packet rtable packet len =
          [Action.log_error (ntohl packet.ip.daddr), Action.free packet] ∧
        (ip_send_packet rtable packet len).countP Action.isFree = 1 ∧
        (ip_send_packet rtable packet len).countP Action.isIcmp = 0 ∧
        (ip_send_packet rtable packet len).countP Action.isTransmit = 0) ∧
      ((∃ e ∈ rtable, rt_match (ntohl packet.ip.daddr) e) →
        ∃ entry, longest_prefix_match rtable (ntohl packet.ip.daddr) = some entry ∧
          ip_send_packet rtable packet len =
            [Action.iface_send_packet_by_arp entry.iface
              (get_next_hop entry (ntohl packet.ip.daddr)) packet len] ∧
          (ip_send_packet rtable packet len).countP Action.isTransmit = 1 ∧
          (ip_send_packet rtable packet len).countP Action.isFree = 0 ∧
          (ip_send_packet rtable packet len).countP Action.isIcmp = 0) := by
  constructor
  · intro hnone
    have hres : longest_prefix_match rtable (ntohl packet.ip.daddr) = none :=
      (lpm_fold_none _ rtable none).mpr ⟨rfl, hnone⟩
    have hrun : ip_send_packet rtable packet len =
        [Action.log_error (ntohl packet.ip.daddr), Action.free packet] := by
      simp only [ip_send_packet, hres]
    refine ⟨hrun, ?_, ?_, ?_⟩
    · rw [hrun]; rfl
    · rw [hrun]; rfl
    · rw [hrun]; rfl
  · rintro ⟨e, he, hem⟩
    cases hres : longest_prefix_match rtable (ntohl packet.ip.daddr) with
    | none =>
      have hno := ((lpm_fold_none _ rtable none).mp hres).2
      exact absurd hem (hno e he)
    | some entry =>
      have hrun : ip_send_packet rtable packet len =
          [Action.iface_send_packet_by_arp entry.iface
            (get_next_hop entry (ntohl packet.ip.daddr)) packet len] := by
        simp only [ip_send_packet, hres]
      refine ⟨entry, rfl, hrun, ?_, ?_, ?_⟩
      · rw [hrun]; rfl
      · rw [hrun]; rfl
      · rw [hrun]; rfl

/-- Witness for C10: an echo reply for 10.0.1.5 with the /24 route present is
transmitted unchanged. -/
theorem ip_send_packet_spec_witness :
    (∃ e ∈ [route8, route24],
        rt_match (ntohl (sample_packet addr_10_0_1_5 64 IPPROTO_ICMP).ip.daddr) e) ∧
      ∃ entry,
        longest_prefix_match [route8, route24]
            (ntohl (sample_packet addr_10_0_1_5 64 IPPROTO_ICMP).ip.daddr) = some entry ∧
          ip_send_packet [route8, route24] (sample_packet addr_10_0_1_5 64 IPPROTO_ICMP) 98 =
            [Action.iface_send_packet_by_arp entry.iface
              (get_next_hop entry (ntohl (sample_packet addr_10_0_1_5 64 IPPROTO_ICMP).ip.daddr))
              (sample_packet addr_10_0_1_5 64 IPPROTO_ICMP) 98] := by
  have hex : ∃ e ∈ [route8, route24],
      rt_match (ntohl (sample_packet addr_10_0_1_5 64 IPPROTO_ICMP).ip.daddr) e :=
    ⟨route24, by decide, by decide⟩
  obtain ⟨entry, hres, hrun, _⟩ :=
    (ip_send_packet_spec [route8, route24] (sample_packet addr_10_0_1_5 64 IPPROTO_ICMP) 98).2 hex
  exact ⟨hex, entry, hres, hrun⟩

/-- C11: whenever `ip_forward_packet` (for destination `ip_dst`) or
`ip_send_packet` (for the header destination in host order) hands a packet to
the transmit capability, the route used is the one `longest_prefix_match`
returns for that destination on the current table, the egress interface passed
is that route's interface, and the next hop passed is the route's gateway if
present and otherwise the destination itself. -/
theorem transmit_uses_lookup_route (rtable : List rt_entry_t) (ip_dst : Nat) (packet : Packet)
    (len : Int) :
    (∀ (iface : iface_info_t) (next_hop : Nat) (sent : Packet) (n : Int),
        Action.iface_send_packet_by_arp iface next_hop sent n ∈
            ip_forward_packet rtable ip_dst packet len →
          ∃ r, longest_prefix_match rtable ip_dst = some r ∧ iface = r.iface ∧
            next_hop = r.gw.getD ip_dst) ∧
      (∀ (iface : iface_info_t) (next_hop : Nat) (sent : Packet) (n : Int),
        Action.iface_send_packet_by_arp iface next_hop sent n ∈
            ip_send_packet rtable packet len →
          ∃ r, longest_prefix_match rtable (ntohl packet.ip.daddr) = some r ∧
            iface = r.iface ∧ next_hop = r.gw.getD (ntohl packet.ip.daddr)) := by
  constructor
  · intro iface next_hop sent n hmem
    by_cases httl : packet.ip.ttl ≤ 1
    · simp [ip_forward_packet, if_pos httl] at hmem
    · cases hres : longest_prefix_match rtable ip_dst with
      | none => simp [ip_forward_packet, if_neg httl, hres] at hmem
      | some r =>
        simp only [ip_forward_packet, if_neg httl, hres, List.mem_singleton,
          Action.iface_send_packet_by_arp.injEq] at hmem
        exact ⟨r, rfl, hmem.1, by rw [hmem.2.1, get_next_hop_eq]⟩
  · intro iface next_hop sent n hmem
    cases hres : longest_prefix_match rtable (ntohl packet.ip.daddr) with
    | none => simp [ip_send_packet, hres] at hmem
    | some r =>
      simp only [ip_send_packet, hres, List.mem_singleton,
        Action.iface_send_packet_by_arp.injEq] at hmem
      exact ⟨r, rfl, hmem.1, by rw [hmem.2.1, get_next_hop_eq]⟩

/-- Witness for C11: an echo reply for 10.0.1.5 sent on the table 10.0.0.0/8,
10.0.1.0/24 (second route via a gateway) leaves through the /24 route's
interface towards its gateway. -/
theorem transmit_uses_lookup_route_witness :
    Action.iface_send_packet_by_arp ifaceA 0x0A000002
        (sample_packet addr_10_0_1_5 64 IPPROTO_ICMP) 98 ∈
        ip_send_packet [route8, route24_alt] (sample_packet addr_10_0_1_5 64 IPPROTO_ICMP) 98 ∧
      ∃ r, longest_prefix_match [route8, route24_alt]
            (ntohl (sample_packet addr_10_0_1_5 64 IPPROTO_ICMP).ip.daddr) = some r ∧
          ifaceA = r.iface ∧
          0x0A000002 = r.gw.getD (ntohl (sample_packet addr_10_0_1_5 64 IPPROTO_ICMP).ip.daddr) :=
  have hmem : Action.iface_send_packet_by_arp ifaceA 0x0A000002
      (sample_packet addr_10_0_1_5 64 IPPROTO_ICMP) 98 ∈
      ip_send_packet [route8, route24_alt] (sample_packet addr_10_0_1_5 64 IPPROTO_ICMP) 98 := by
    decide
  ⟨hmem, (transmit_uses_lookup_route [route8, route24_alt] addr_10_0_1_5
    (sample_packet addr_10_0_1_5 64 IPPROTO_ICMP) 98).2 _ _ _ _ hmem⟩

/-- C12: for a 32-bit source `s`, a 32-bit destination `d`, a 16-bit total
length `n` and a protocol `p`, all in host order, the header built by
`ip_init_hdr` has version 4, header length 5 words, type-of-service 0, the
flags/fragment-offset word equal to the don't-fragment flag alone (fragment
offset 0) in network byte order, TTL `DEFAULT_TTL`, protocol `p`, and total
length, source and destination stored in network byte order:
`ntohs tot_len = n`, `ntohl saddr = s`, `ntohl daddr = d`. -/
theorem ip_init_hdr_fields (ip : iphdr) (rand s d n p : Nat)
    (hs : s < 4294967296) (hd : d < 4294967296) (hn : n < 65536) :
    (ip_init_hdr ip rand s d n p).version = 4 ∧
      (ip_init_hdr ip rand s d n p).ihl = 5 ∧
      (ip_init_hdr ip rand s d n p).tos = 0 ∧
      (ip_init_hdr ip rand s d n p).frag_off = htons IP_DF ∧
      ntohs (ip_init_hdr ip rand s d n p).frag_off = IP_DF ∧
      ntohs (ip_init_hdr ip rand s d n p).frag_off % 8192 = 0 ∧
      (ip_init_hdr ip rand s d n p).ttl = DEFAULT_TTL ∧
      (ip_init_hdr ip rand s d n p).protocol = p ∧
      (ip_init_hdr ip rand s d n p).tot_len = htons n ∧
      (ip_init_hdr ip rand s d n p).saddr = htonl s ∧
      (ip_init_hdr ip rand s d n p).daddr = htonl d ∧
      ntohs (ip_init_hdr ip rand s d n p).tot_len = n ∧
      ntohl (ip_init_hdr ip rand s d n p).saddr = s ∧
      ntohl (ip_init_hdr ip rand s d n p).daddr = d := by
  have hdf : ntohs (htons IP_DF) = IP_DF := by decide
  have hoff : ntohs (htons IP_DF) % 8192 = 0 := by decide
  refine ⟨rfl, rfl, rfl, rfl, hdf, hoff, rfl, rfl, rfl, rfl, rfl, ?_, ?_, ?_⟩
  · exact bswap16_bswap16 n hn
  · exact bswap32_bswap32 s hs
  · exact bswap32_bswap32 d hd

/-- Witness for C12: a 84-byte ICMP packet from 10.0.2.5 to 10.0.1.5 built over
a buffer with stale content. -/
theorem ip_init_hdr_fields_witness :
    (ip_init_hdr stale_hdr 4660 addr_10_0_2_5 addr_10_0_1_5 84 IPPROTO_ICMP).version = 4 ∧
      ntohs (ip_init_hdr stale_hdr 4660 addr_10_0_2_5 addr_10_0_1_5 84 IPPROTO_ICMP).tot_len
        = 84 ∧
      ntohl (ip_init_hdr stale_hdr 4660 addr_10_0_2_5 addr_10_0_1_5 84 IPPROTO_ICMP).daddr
        = addr_10_0_1_5 :=
  have h := ip_init_hdr_fields stale_hdr 4660 addr_10_0_2_5 addr_10_0_1_5 84 IPPROTO_ICMP
    (by decide) (by decide) (by decide)
  ⟨h.1, h.2.2.2.2.2.2.2.2.2.2.2.1, h.2.2.2.2.2.2.2.2.2.2.2.2.2⟩

/-- C13: whatever the inputs, the identification value chosen and the prior
content of the header buffer, the checksum field written by `ip_init_hdr` is
the header checksum of the final header (the checksum is computed after all
other fields are set, its own field counting as zero); for an 8-bit protocol
the resulting header passes the receiver's check; and the header produced does
not depend on what the buffer held before. -/
theorem ip_init_hdr_checksum (ip ip2 : iphdr) (rand s d n p : Nat) :
    (ip_init_hdr ip rand s d n p).checksum = ip_checksum (ip_init_hdr ip rand s d n p) ∧
      (p < 256 → header_verifies (ip_init_hdr ip rand s d n p)) ∧
      ip_init_hdr ip rand s d n p = ip_init_hdr ip2 rand s d n p := by
  refine ⟨rfl, ?_, rfl⟩
  intro hp
  apply header_verifies_of_checksum _ _ rfl
  have h1 := bswap16_lt n
  have h2 := bswap16_lt IP_DF
  have h3 := bswap32_lt s
  have h4 := bswap32_lt d
  have h5 : DEFAULT_TTL = 64 := rfl
  intro w hw
  simp only [ip_init_hdr, iphdr.words, htons, htonl, List.mem_cons, List.mem_singleton,
    List.not_mem_nil, or_false] at hw
  rcases hw with rfl | rfl | rfl | rfl | rfl | rfl | rfl | rfl | rfl | rfl <;> omega

/-- Witness for C13: the header built for an ICMP packet (protocol 1) over a
stale buffer passes the receiver's check. -/
theorem ip_init_hdr_checksum_witness :
    IPPROTO_ICMP < 256 ∧
      header_verifies
        (ip_init_hdr stale_hdr 4660 addr_10_0_2_5 addr_10_0_1_5 84 IPPROTO_ICMP) :=
  ⟨by decide, (ip_init_hdr_checksum stale_hdr stale_hdr 4660 addr_10_0_2_5 addr_10_0_1_5 84
    IPPROTO_ICMP).2.1 (by decide)⟩

/-- C14: a packet addressed to the routing-protocol multicast address, not to
the receiving interface's own address, whose payload protocol is not the
routing protocol is rejected: the protocol assertion fails before any action,
so the call does not return as a completed delivery, and the packet is neither
handed to the routing-protocol collaborator nor transmitted. -/
theorem handle_ip_packet_multicast_rejected (rtable : List rt_entry_t) (iface : iface_info_t)
    (packet : Packet) (len : Int)
    (hlocal : ntohl packet.ip.daddr ≠ iface.ip)
    (hmcast : packet.ip.daddr = htonl MOSPF_ALLSPFRouters)
    (hproto : packet.ip.protocol ≠ IPPROTO_MOSPF) :
    handle_ip_packet rtable iface packet len = Outcome.assert_failed [] ∧
      (∀ t, handle_ip_packet rtable iface packet len ≠ Outcome.returned t) ∧
      (handle_ip_packet rtable iface packet len).trace.countP Action.isMospf = 0 ∧
      (handle_ip_packet rtable iface packet len).trace.countP Action.isTransmit = 0 := by
  have hrun : handle_ip_packet rtable iface packet len = Outcome.assert_failed [] := by
    simp only [handle_ip_packet, if_neg hlocal, if_pos hmcast, if_neg hproto]
  refine ⟨hrun, ?_, ?_, ?_⟩
  · intro t ht
    rw [hrun] at ht
    cases ht
  · rw [hrun]; rfl
  · rw [hrun]; rfl

/-- Witness for C14: a UDP packet to 224.0.0.5 arriving on interface B. -/
theorem handle_ip_packet_multicast_rejected_witness :
    mcast_udp_packet.ip.protocol ≠ IPPROTO_MOSPF ∧
      handle_ip_packet [route8, route24] ifaceB mcast_udp_packet 48 = Outcome.assert_failed [] :=
  ⟨by decide, (handle_ip_packet_multicast_rejected [route8, route24] ifaceB mcast_udp_packet 48
    (by decide) (by decide) (by decide)).1⟩

/-- C15: when some route matches `dst`, `longest_prefix_match` returns the first
route, in list iteration order, among the matching routes whose mask is the
maximum over all matching routes: the table splits as `pre ++ r :: post` with
`r` returned, `r` matching with the greatest mask, and every matching route
before `r` having a strictly smaller mask. A later route replaces the current
best only when it matches with a strictly greater mask. -/
theorem longest_prefix_match_first_found (rtable : List rt_entry_t) (dst : Nat)
    (hex : ∃ e ∈ rtable, rt_match dst e) :
    (∃ r pre post, longest_prefix_match rtable dst = some r ∧ rtable = pre ++ r :: post ∧
        rt_match dst r ∧
        (∀ e ∈ rtable, rt_match dst e → e.mask ≤ r.mask) ∧
        (∀ e ∈ pre, rt_match dst e → e.mask < r.mask)) ∧
      (∀ s e : rt_entry_t, lpm_step dst (some s) e =
        if rt_match dst e ∧ s.mask < e.mask then some e else some s) := by
  refine ⟨?_, lpm_step_some dst⟩
  obtain ⟨e, he, hem⟩ := hex
  obtain ⟨r, hr⟩ := lpm_some_of_match rtable dst e he hem
  have hmax := (lpm_some_max rtable dst r hr).2.2
  rcases lpm_fold_first dst rtable none r hr with ⟨hnone, _⟩ | ⟨pre, post, hl, hrm, _, hpre, _⟩
  · cases hnone
  · exact ⟨r, pre, post, hr, hl, hrm, hmax, hpre⟩

/-- Witness for C15: with two matching /24 routes of equal mask after the /8
route, the lookup of 10.0.1.5 returns the first of the two. -/
theorem longest_prefix_match_first_found_witness :
    longest_prefix_match [route8, route24, route24_alt] addr_10_0_1_5 = some route24 ∧
      ∃ r pre post,
        longest_prefix_match [route8, route24, route24_alt] addr_10_0_1_5 = some r ∧
        [route8, route24, route24_alt] = pre ++ r :: post ∧ rt_match addr_10_0_1_5 r ∧
        (∀ e ∈ [route8, route24, route24_alt], rt_match addr_10_0_1_5 e → e.mask ≤ r.mask) ∧
        (∀ e ∈ pre, rt_match addr_10_0_1_5 e → e.mask < r.mask) :=
  ⟨by decide, (longest_prefix_match_first_found [route8, route24, route24_alt] addr_10_0_1_5
    ⟨route8, by decide, by decide⟩).1⟩

/-- C16: for a packet addressed to the receiving interface's own address,
whatever its protocol, TTL and the routing table, `handle_ip_packet` releases
the buffer exactly once, never transmits and does not depend on the table; it
sends an ICMP echo reply exactly when the protocol is ICMP and the ICMP type
is echo-request, hands the packet to the routing-protocol collaborator exactly
when the protocol is the routing protocol, and otherwise only releases. -/
theorem handle_ip_packet_local_delivery (rtable : List rt_entry_t) (iface : iface_info_t)
    (packet : Packet) (len : Int)
    (hlocal : ntohl packet.ip.daddr = iface.ip) :
    handle_ip_packet rtable iface packet len =
        Outcome.returned
          ((if packet.ip.protocol = IPPROTO_ICMP ∧ icmp_type packet = ICMP_ECHOREQUEST then
              [Action.icmp_send_packet packet len ICMP_ECHOREPLY 0] else []) ++
            (if packet.ip.protocol = IPPROTO_MOSPF then
              [Action.handle_mospf_packet iface packet len] else []) ++
            [Action.free packet]) ∧
      (handle_ip_packet rtable iface packet len).trace.countP Action.isFree = 1 ∧
      (handle_ip_packet rtable iface packet len).trace.countP Action.isTransmit = 0 ∧
      (handle_ip_packet rtable iface packet len).trace.countP Action.isIcmp =
        (if packet.ip.protocol = IPPROTO_ICMP ∧ icmp_type packet = ICMP_ECHOREQUEST
          then 1 else 0) ∧
      (handle_ip_packet rtable iface packet len).trace.countP Action.isMospf =
        (if packet.ip.protocol = IPPROTO_MOSPF then 1 else 0) ∧
      (¬ (packet.ip.protocol = IPPROTO_ICMP ∧ icmp_type packet = ICMP_ECHOREQUEST) →
        packet.ip.protocol ≠ IPPROTO_MOSPF →
          handle_ip_packet rtable iface packet len = Outcome.returned [Action.free packet]) ∧
      ∀ rtable2 : List rt_entry_t,
        handle_ip_packet rtable2 iface packet len = handle_ip_packet rtable iface packet len := by
  have hne : IPPROTO_ICMP ≠ IPPROTO_MOSPF := by decide
  have hrun : ∀ rt : List rt_entry_t, handle_ip_packet rt iface packet len =
      Outcome.returned
        ((if packet.ip.protocol = IPPROTO_ICMP ∧ icmp_type packet = ICMP_ECHOREQUEST then
            [Action.icmp_send_packet packet len ICMP_ECHOREPLY 0] else []) ++
          (if packet.ip.protocol = IPPROTO_MOSPF then
            [Action.handle_mospf_packet iface packet len] else []) ++
          [Action.free packet]) := by
    intro rt
    by_cases hicmp : packet.ip.protocol = IPPROTO_ICMP
    · have hnm : ¬ packet.ip.protocol = IPPROTO_MOSPF := by rw [hicmp]; exact hne
      by_cases htype : icmp_type packet = ICMP_ECHOREQUEST
      · have h1 : packet.ip.protocol = IPPROTO_ICMP ∧ icmp_type packet = ICMP_ECHOREQUEST :=
          ⟨hicmp, htype⟩
        simp only [handle_ip_packet, if_pos hlocal, if_pos hicmp, if_pos htype, if_pos h1,
          if_neg hnm, List.append_nil]
      · have h1 : ¬ (packet.ip.protocol = IPPROTO_ICMP ∧
            icmp_type packet = ICMP_ECHOREQUEST) := fun h => htype h.2
        simp only [handle_ip_packet, if_pos hlocal, if_pos hicmp, if_neg htype, if_neg h1,
          if_neg hnm, List.append_nil]
    · have h1 : ¬ (packet.ip.protocol = IPPROTO_ICMP ∧
          icmp_type packet = ICMP_ECHOREQUEST) := fun h => hicmp h.1
      by_cases hm : packet.ip.protocol = IPPROTO_MOSPF
      · simp only [handle_ip_packet, if_pos hlocal, if_neg hicmp, if_pos hm, if_neg h1,
          List.nil_append]
      · simp only [handle_ip_packet, if_pos hlocal, if_neg hicmp, if_neg hm, if_neg h1,
          List.nil_append]
  refine ⟨hrun rtable, ?_, ?_, ?_, ?_, ?_, ?_⟩
  · rw [hrun]
    by_cases h1 : packet.ip.protocol = IPPROTO_ICMP ∧ icmp_type packet = ICMP_ECHOREQUEST <;>
      by_cases h2 : packet.ip.protocol = IPPROTO_MOSPF <;>
      simp only [if_pos, if_neg, h1, h2, not_false_eq_true] <;> rfl
  · rw [hrun]
    by_cases h1 : packet.ip.protocol = IPPROTO_ICMP ∧ icmp_type packet = ICMP_ECHOREQUEST <;>
      by_cases h2 : packet.ip.protocol = IPPROTO_MOSPF <;>
      simp only [if_pos, if_neg, h1, h2, not_false_eq_true] <;> rfl
  · rw [hrun]
    by_cases h1 : packet.ip.protocol = IPPROTO_ICMP ∧ icmp_type packet = ICMP_ECHOREQUEST <;>
      by_cases h2 : packet.ip.protocol = IPPROTO_MOSPF <;>
      simp only [if_pos, if_neg, h1, h2, not_false_eq_true] <;> rfl
  · rw [hrun]
    by_cases h1 : packet.ip.protocol = IPPROTO_ICMP ∧ icmp_type packet = ICMP_ECHOREQUEST <;>
      by_cases h2 : packet.ip.protocol = IPPROTO_MOSPF <;>
      simp only [if_pos, if_neg, h1, h2, not_false_eq_true] <;> rfl
  · intro h1 h2
    rw [hrun, if_neg h1, if_neg h2]
    rfl
  · intro rtable2; rw [hrun, hrun]

/-- Witness for C16: a UDP packet to 10.0.0.1 arriving on interface A with TTL 1
is only released. -/
theorem handle_ip_packet_local_delivery_witness :
    ntohl (sample_packet ifaceA.ip 1 17).ip.daddr = ifaceA.ip ∧
      handle_ip_packet [route8] ifaceA (sample_packet ifaceA.ip 1 17) 42 =
        Outcome.returned [Action.free (sample_packet ifaceA.ip 1 17)] :=
  ⟨by decide, (handle_ip_packet_local_delivery [route8] ifaceA (sample_packet ifaceA.ip 1 17) 42
    (by decide)).2.2.2.2.2.1 (by decide) (by decide)⟩

/-- C17: for two routing tables that are permutations of each other, if no two
distinct routes matching `dst` share the maximum mask among the matching
routes, `longest_prefix_match` returns the same route on both tables. Without
that condition the order matters: the two /24 routes for 10.0.1.0 match
10.0.1.5 with the same mask, and swapping them changes the route returned. -/
theorem longest_prefix_match_perm (rt1 rt2 : List rt_entry_t) (dst : Nat)
    (hperm : rt1.Perm rt2)
    (huniq : ∀ e1 ∈ rt1, ∀ e2 ∈ rt1, rt_match dst e1 → rt_match dst e2 →
      (∀ e ∈ rt1, rt_match dst e → e.mask ≤ e1.mask) →
      (∀ e ∈ rt1, rt_match dst e → e.mask ≤ e2.mask) → e1 = e2) :
    longest_prefix_match rt1 dst = longest_prefix_match rt2 dst ∧
      ([route24, route24_alt].Perm [route24_alt, route24] ∧
        rt_match addr_10_0_1_5 route24 ∧ rt_match addr_10_0_1_5 route24_alt ∧
        route24.mask = route24_alt.mask ∧
        longest_prefix_match [route24, route24_alt] addr_10_0_1_5 = some route24 ∧
        longest_prefix_match [route24_alt, route24] addr_10_0_1_5 = some route24_alt ∧
        longest_prefix_match [route24, route24_alt] addr_10_0_1_5 ≠
          longest_prefix_match [route24_alt, route24] addr_10_0_1_5) := by
  constructor
  · cases h1 : longest_prefix_match rt1 dst with
    | none =>
      have hno := ((lpm_fold_none dst rt1 none).mp h1).2
      symm
      exact (lpm_fold_none dst rt2 none).mpr ⟨rfl, fun e he => hno e (hperm.mem_iff.mpr he)⟩
    | some r1 =>
      obtain ⟨hr1, hm1, hmax1⟩ := lpm_some_max rt1 dst r1 h1
      obtain ⟨r2, h2⟩ := lpm_some_of_match rt2 dst r1 (hperm.mem_iff.mp hr1) hm1
      obtain ⟨hr2, hm2, hmax2⟩ := lpm_some_max rt2 dst r2 h2
      have hr2in : r2 ∈ rt1 := hperm.mem_iff.mpr hr2
      have hmax2in : ∀ e ∈ rt1, rt_match dst e → e.mask ≤ r2.mask :=
        fun e he hem => hmax2 e (hperm.mem_iff.mp he) hem
      rw [h2, huniq r1 hr1 r2 hr2in hm1 hm2 hmax1 hmax2in]
  · exact ⟨List.Perm.swap _ _ _, by decide, by decide, by decide, by decide, by decide,
      by decide⟩

/-- Witness for C17: the tables 10.0.0.0/8, 10.0.1.0/24 and 10.0.1.0/24,
10.0.0.0/8 give the same route for 10.0.1.5. -/
theorem longest_prefix_match_perm_witness :
    [route8, route24].Perm [route24, route8] ∧
      longest_prefix_match [route8, route24] addr_10_0_1_5 =
        longest_prefix_match [route24, route8] addr_10_0_1_5 :=
  ⟨List.Perm.swap _ _ _, (longest_prefix_match_perm [route8, route24] [route24, route8]
    addr_10_0_1_5 (List.Perm.swap _ _ _) (by decide)).1⟩

/-- C18: a route with mask 0 matches every destination; on a table containing
such a route `longest_prefix_match` returns some route for every `dst`, and the
route returned has mask 0 only when no route with a non-zero mask matches
`dst`. -/
theorem longest_prefix_match_default_route (rtable : List rt_entry_t) (dst : Nat)
    (hdef : ∃ e ∈ rtable, e.mask = 0) :
    (∀ e : rt_entry_t, e.mask = 0 → rt_match dst e) ∧
      ∃ r, longest_prefix_match rtable dst = some r ∧
        (r.mask = 0 → ∀ e ∈ rtable, rt_match dst e → e.mask = 0) := by
  have hzero : ∀ e : rt_entry_t, e.mask = 0 → rt_match dst e := by
    intro e he
    unfold rt_match
    rw [he, Nat.and_zero, Nat.and_zero]
  refine ⟨hzero, ?_⟩
  obtain ⟨e0, he0, hm0⟩ := hdef
  obtain ⟨r, hr⟩ := lpm_some_of_match rtable dst e0 he0 (hzero e0 hm0)
  refine ⟨r, hr, ?_⟩
  intro hr0 e he hem
  have hle := (lpm_some_max rtable dst r hr).2.2 e he hem
  omega

/-- Witness for C18: with a default route and the /24 route, 10.0.2.5 is served
by the default route and no route of non-zero mask matches it. -/
theorem longest_prefix_match_default_route_witness :
    (∃ e ∈ [route24, route_default], e.mask = 0) ∧
      longest_prefix_match [route24, route_default] addr_10_0_2_5 = some route_default ∧
      ∃ r, longest_prefix_match [route24, route_default] addr_10_0_2_5 = some r ∧
        (r.mask = 0 → ∀ e ∈ [route24, route_default], rt_match addr_10_0_2_5 e → e.mask = 0) :=
  have hdef : ∃ e ∈ [route24, route_default], e.mask = 0 := ⟨route_default, by decide, rfl⟩
  ⟨hdef, by decide,
    (longest_prefix_match_default_route [route24, route_default] addr_10_0_2_5 hdef).2⟩

/-- C19: the TTL decrement and the checksum rewrite come before the route
lookup: for a transit packet with TTL `t ≥ 2` whose destination matches no
route, the packet passed to the ICMP destination-unreachable generator, and
then released, carries TTL `t - 1` and the checksum recomputed for it, and is
not the header as received. -/
theorem forward_no_route_sees_decremented_ttl (rtable : List rt_entry_t) (iface : iface_info_t)
    (packet : Packet) (len : Int)
    (hu8 : packet.ip.ttl < 256)
    (hlocal : ntohl packet.ip.daddr ≠ iface.ip)
    (hmcast : packet.ip.daddr ≠ htonl MOSPF_ALLSPFRouters)
    (httl : 2 ≤ packet.ip.ttl)
    (hnone : ∀ e ∈ rtable, ¬ rt_match (ntohl packet.ip.daddr) e) :
    ∃ buf : Packet,
      handle_ip_packet rtable iface packet len =
        Outcome.returned [Action.icmp_send_packet buf len ICMP_DEST_UNREACH ICMP_NET_UNREACH,
          Action.free buf] ∧
      buf.ip.ttl = packet.ip.ttl - 1 ∧
      buf.ip.checksum = ip_checksum { packet.ip with ttl := packet.ip.ttl - 1 } ∧
      buf.ip.checksum = ip_checksum buf.ip ∧
      buf.ip.ttl ≠ packet.ip.ttl ∧ buf ≠ packet := by
  have hres : longest_prefix_match rtable (ntohl packet.ip.daddr) = none :=
    (lpm_fold_none _ rtable none).mpr ⟨rfl, hnone⟩
  have hgt : ¬ packet.ip.ttl ≤ 1 := by omega
  have hdec : (packet.ip.ttl + 255) % 256 = packet.ip.ttl - 1 := by omega
  have hrun : handle_ip_packet rtable iface packet len =
      Outcome.returned [Action.icmp_send_packet
          { packet with ip := { packet.ip with
              ttl := packet.ip.ttl - 1,
              checksum := ip_checksum { packet.ip with ttl := packet.ip.ttl - 1 } } }
          len ICMP_DEST_UNREACH ICMP_NET_UNREACH,
        Action.free
          { packet with ip := { packet.ip with
              ttl := packet.ip.ttl - 1,
              checksum := ip_checksum { packet.ip with ttl := packet.ip.ttl - 1 } } }] := by
    simp only [handle_ip_packet, ip_forward_packet, if_neg hlocal, if_neg hmcast, if_neg hgt,
      hres, hdec]
  have hne : packet.ip.ttl - 1 ≠ packet.ip.ttl := by omega
  refine ⟨_, hrun, rfl, rfl, rfl, hne, ?_⟩
  intro heq
  exact hne (congrArg (fun q : Packet => q.ip.ttl) heq)

/-- Witness for C19: a UDP packet for 10.0.2.5 with TTL 64 arriving on interface A
when the only route is 10.0.1.0/24: the ICMP generator sees TTL 63. -/
theorem forward_no_route_sees_decremented_ttl_witness :
    (sample_packet addr_10_0_2_5 64 17).ip.ttl = 64 ∧
      ∃ buf : Packet,
        handle_ip_packet [route24] ifaceA (sample_packet addr_10_0_2_5 64 17) 42 =
          Outcome.returned [Action.icmp_send_packet buf 42 ICMP_DEST_UNREACH ICMP_NET_UNREACH,
            Action.free buf] ∧
        buf.ip.ttl = 63 := by
  obtain ⟨buf, hrun, httl, _⟩ :=
    forward_no_route_sees_decremented_ttl [route24] ifaceA (sample_packet addr_10_0_2_5 64 17) 42
      (by decide) (by decide) (by decide) (by decide) (by decide)
  exact ⟨rfl, buf, hrun, httl⟩

/-- C20: in every packet that `ip_forward_packet` hands to the transmit
capability, only the TTL and the checksum can differ from the packet received:
version, header length, type-of-service, total length, identification,
flags/fragment offset, protocol, source and destination addresses, the payload
bytes and the length passed on are unchanged. -/
theorem ip_forward_packet_frame (rtable : List rt_entry_t) (ip_dst : Nat) (packet : Packet)
    (len : Int) (iface : iface_info_t) (next_hop : Nat) (sent : Packet) (n : Int)
    (hsent : Action.iface_send_packet_by_arp iface next_hop sent n ∈
      ip_forward_packet rtable ip_dst packet len) :
    sent.ip.version = packet.ip.version ∧ sent.ip.ihl = packet.ip.ihl ∧
      sent.ip.tos = packet.ip.tos ∧ sent.ip.tot_len = packet.ip.tot_len ∧
      sent.ip.id = packet.ip.id ∧ sent.ip.frag_off = packet.ip.frag_off ∧
      sent.ip.protocol = packet.ip.protocol ∧ sent.ip.saddr = packet.ip.saddr ∧
      sent.ip.daddr = packet.ip.daddr ∧ sent.data = packet.data ∧ n = len ∧
      sent = { packet with ip := { packet.ip with
        ttl := sent.ip.ttl, checksum := sent.ip.checksum } } := by
  by_cases httl : packet.ip.ttl ≤ 1
  · simp [ip_forward_packet, if_pos httl] at hsent
  · cases hres : longest_prefix_match rtable ip_dst with
    | none => simp [ip_forward_packet, if_neg httl, hres] at hsent
    | some r =>
      simp only [ip_forward_packet, if_neg httl, hres, List.mem_singleton,
        Action.iface_send_packet_by_arp.injEq] at hsent
      obtain ⟨_, _, hs, hn⟩ := hsent
      subst hs
      exact ⟨rfl, rfl, rfl, rfl, rfl, rfl, rfl, rfl, rfl, rfl, hn, rfl⟩

/-- Witness for C20: the UDP packet for 10.0.1.5 with TTL 2 is sent with TTL 1
and a new checksum, everything else as received. -/
theorem ip_forward_packet_frame_witness :
    Action.iface_send_packet_by_arp ifaceB addr_10_0_1_5
        { sample_packet addr_10_0_1_5 2 17 with
          ip := { sample_hdr addr_10_0_1_5 2 17 with
            ttl := 1, checksum := ip_checksum (sample_hdr addr_10_0_1_5 1 17) } } 42 ∈
        ip_forward_packet [route8, route24] addr_10_0_1_5 (sample_packet addr_10_0_1_5 2 17) 42 ∧
      ({ sample_packet addr_10_0_1_5 2 17 with
          ip := { sample_hdr addr_10_0_1_5 2 17 with
            ttl := 1, checksum := ip_checksum (sample_hdr addr_10_0_1_5 1 17) } } : Packet).data =
        (sample_packet addr_10_0_1_5 2 17).data :=
  have hmem : Action.iface_send_packet_by_arp ifaceB addr_10_0_1_5
      { sample_packet addr_10_0_1_5 2 17 with
        ip := { sample_hdr addr_10_0_1_5 2 17 with
          ttl := 1, checksum := ip_checksum (sample_hdr addr_10_0_1_5 1 17) } } 42 ∈
      ip_forward_packet [route8, route24] addr_10_0_1_5 (sample_packet addr_10_0_1_5 2 17) 42 := by
    decide
  ⟨hmem, (ip_forward_packet_frame [route8, route24] addr_10_0_1_5
    (sample_packet addr_10_0_1_5 2 17) 42 _ _ _ _ hmem).2.2.2.2.2.2.2.2.2.1⟩

end IpForward
